import Mathlib

/-!
Verification of `src/llm_output_validator.py` (the weavelang block validator).

Shallow embedding conventions:
* A Python `str` is modelled as `List Char` (`Str`); the ASCII subset of
  Python's whitespace / digit / line-break character classes is used (the
  validator's micro-format is ASCII-framed; markers, separators and flags are
  all ASCII).
* `str.strip`, `str.startswith`, `str.splitlines`, `str.split`, `str.count`
  and slicing are modelled by the executable functions below.
* The five module-level regexes are modelled as deterministic parsers that
  implement the backtracking semantics of `re.match` for those patterns
  (`(.*?)` = lazy scan for the next separator, `\s*` = greedy whitespace
  skip, `$` = end of line); lines produced by `splitlines` never contain
  line-break characters, so `.` is "any character".
* A Python `set` of segment ids is modelled as an insertion-ordered
  duplicate-free list (`setInsert`); only membership and size are observed
  by the validator, plus iteration order for "missing id" messages.
* Error strings are reproduced verbatim (`msg...` builders below).
-/

namespace Weave

abbrev Str := List Char

/-- Single-quote character (ASCII 39), used inside error messages. -/
def sq : Str := [Char.ofNat 39]

/-- Shorthand: characters of a Lean string literal. -/
def lit (s : String) : Str := s.toList

/-- ASCII model of Python whitespace (`str.strip` / regex `\s`):
space, tab, newline, carriage return, vertical tab, form feed. -/
def isWsChar (c : Char) : Bool :=
  c = ' ' || c = '\t' || c = '\n' || c = '\r' || c = Char.ofNat 11 || c = Char.ofNat 12

/-- ASCII model of the line boundaries recognised by `str.splitlines`:
`\n`, `\r`, `\r\n`, `\v`, `\f`, `\x1c`, `\x1d`, `\x1e`. -/
def isLineBreakChar (c : Char) : Bool :=
  c = '\n' || c = '\r' || c = Char.ofNat 11 || c = Char.ofNat 12 ||
  c = Char.ofNat 28 || c = Char.ofNat 29 || c = Char.ofNat 30

/-- `str.lstrip()` -/
def lstrip (l : Str) : Str := l.dropWhile isWsChar

/-- `str.rstrip()` -/
def rstrip (l : Str) : Str := (l.reverse.dropWhile isWsChar).reverse

/-- `str.strip()` -/
def strip (l : Str) : Str := rstrip (lstrip l)

/-- `needle in haystack` (Python substring containment). -/
def containsSub (needle : Str) : Str → Bool
  | [] => needle.isPrefixOf []
  | c :: t => needle.isPrefixOf (c :: t) || containsSub needle t

/-- Worker for `splitlines`: accumulates the current line in reverse.
A trailing line break does not produce a trailing empty line; `\r\n` counts
as one boundary. -/
def splitlinesGo (acc : Str) : Str → List Str
  | [] => [acc.reverse]
  | [c] => if isLineBreakChar c then [acc.reverse] else [(c :: acc).reverse]
  | c :: c2 :: rest =>
      if c = '\r' ∧ c2 = '\n' then
        if rest.isEmpty then [acc.reverse] else acc.reverse :: splitlinesGo [] rest
      else if isLineBreakChar c then
        acc.reverse :: splitlinesGo [] (c2 :: rest)
      else splitlinesGo (c :: acc) (c2 :: rest)

/-- `str.splitlines()` -/
def splitlines (s : Str) : List Str :=
  if s.isEmpty then [] else splitlinesGo [] s

/-- `str.split(sep)` for a single-character separator (keeps empty parts). -/
def splitChar (c : Char) : Str → List Str
  | [] => [[]]
  | x :: xs =>
      if x = c then [] :: splitChar c xs
      else
        match splitChar c xs with
        | h :: t => (x :: h) :: t
        | [] => [[x]]

/-- Worker for `str.split()` (no argument: split on whitespace runs). -/
def wordsGo (cur : Str) : Str → List Str
  | [] => if cur.isEmpty then [] else [cur.reverse]
  | c :: cs =>
      if isWsChar c then
        if cur.isEmpty then wordsGo [] cs else cur.reverse :: wordsGo [] cs
      else wordsGo (c :: cur) cs

/-- `str.split()` -/
def splitWsWords (l : Str) : List Str := wordsGo [] l

/-- Decimal digit string of `n`, fuel-driven so that it reduces by `decide`.
The fuel `n+1` always suffices (`n/10` loses a digit per step). -/
def natToStrGo : Nat → Nat → Str → Str
  | 0, _, acc => acc
  | fuel + 1, n, acc =>
      let d := Nat.digitChar (n % 10)
      if n < 10 then d :: acc else natToStrGo fuel (n / 10) (d :: acc)

/-- Decimal representation of a natural number (Python `str(n)` / f-string). -/
def natToStr (n : Nat) : Str := natToStrGo (n + 1) n []

/-- Specification twin of `natToStr` (well-founded recursion, proof use only). -/
def natDigits (n : Nat) : Str :=
  if n < 10 then [Nat.digitChar n]
  else natDigits (n / 10) ++ [Nat.digitChar (n % 10)]
  decreasing_by exact Nat.div_lt_self (by omega) (by omega)

/-- Numeric value of a digit character. -/
def digitVal (c : Char) : Nat := c.toNat - 48

/-- Folds a digit string back into a number (used to prove `natToStr` injective). -/
def strToNatGo (acc : Nat) : Str → Nat
  | [] => acc
  | c :: cs => strToNatGo (acc * 10 + digitVal c) cs

def strToNat (l : Str) : Nat := strToNatGo 0 l

/-- `sep.join(parts)` -/
def joinSep (sep : Str) : List Str → Str
  | [] => []
  | [x] => x
  | x :: y :: t => x ++ sep ++ joinSep sep (y :: t)

/-- Python `repr` of a list of strings, e.g. `['S1', 'S3']`
(segment ids contain no quotes, so single-quoting is exact). -/
def pyListRepr (xs : List Str) : Str :=
  ['['] ++ joinSep (lit (", ")) (xs.map (fun s => sq ++ s ++ sq)) ++ [']']

-- === Section marker constants (`REQUIRED_SECTION_MARKERS` etc.) ===

def mAdvS : Str := ['A', 'd', 'v', 'S', ':', ':']
def mSimS : Str := ['S', 'i', 'm', 'S', ':', ':']
def mSimE : Str := ['S', 'i', 'm', 'E', ':', ':']
def mSimS_Segments : Str :=
  ['S', 'i', 'm', 'S', '_', 'S', 'e', 'g', 'm', 'e', 'n', 't', 's', ':', ':']
def mPHRASE_ALIGN : Str :=
  ['P', 'H', 'R', 'A', 'S', 'E', '_', 'A', 'L', 'I', 'G', 'N', ':', ':']
def mSimSL : Str := ['S', 'i', 'm', 'S', 'L', ':', ':']
def mAdvSL : Str := ['A', 'd', 'v', 'S', 'L', ':', ':']
def mDIGLOT_MAP : Str :=
  ['D', 'I', 'G', 'L', 'O', 'T', '_', 'M', 'A', 'P', ':', ':']
def mLOCKED_PHRASE : Str :=
  ['L', 'O', 'C', 'K', 'E', 'D', '_', 'P', 'H', 'R', 'A', 'S', 'E', ':', ':']

def REQUIRED_SECTION_MARKERS : List Str :=
  [mAdvS, mSimS, mSimE, mSimS_Segments, mPHRASE_ALIGN, mSimSL, mAdvSL, mDIGLOT_MAP]

def OPTIONAL_SECTION_MARKERS : List Str := [mLOCKED_PHRASE]

def ALL_POSSIBLE_MARKERS : List Str :=
  REQUIRED_SECTION_MARKERS ++ OPTIONAL_SECTION_MARKERS

/-- `END_SENTENCE` -/
def esTok : Str :=
  ['E', 'N', 'D', '_', 'S', 'E', 'N', 'T', 'E', 'N', 'C', 'E']

/-- `line.strip().startswith(marker)` -/
def startsWithMarker (m : Str) (l : Str) : Bool := m.isPrefixOf (strip l)

/-- Does the trimmed line start with any of the known markers? -/
def anyMarker (allM : List Str) (l : Str) : Bool :=
  allM.any (fun m => startsWithMarker m l)

-- === Regex models ===

/-- `RE_S_SEGMENT_LINE = ^(S\d+)\((.*)\)$` applied with `re.match`.
Returns `(group1, group2)`: the id `S<digits>` and the text between the
parenthesis after the digits and the final `)`. -/
def parseSegLine (l : Str) : Option (Str × Str) :=
  match l with
  | c0 :: rest =>
      if c0 = 'S' then
        let ds := rest.takeWhile Char.isDigit
        let r := rest.dropWhile Char.isDigit
        if ds.isEmpty then none
        else
          match r with
          | c1 :: body =>
              if c1 = '(' then
                match body.reverse with
                | c2 :: revMid =>
                    if c2 = ')' then some ('S' :: ds, revMid.reverse) else none
                | _ => none
              else none
          | _ => none
      else none
  | _ => none

/-- First occurrence split: `some (before, after)` with
`l = before ++ c :: after` and `c ∉ before`. -/
def splitAtChar (c : Char) : Str → Option (Str × Str)
  | [] => none
  | x :: xs =>
      if x = c then some ([], xs)
      else (splitAtChar c xs).map (fun p => (x :: p.1, p.2))

/-- `RE_PHRASE_ALIGN_LINE = ^(S\d+)\s*~\s*(.*?)\s*~\s*(.*)$` with `re.match`.
The lazy group 2 reaches to the first later `~`; the greedy `\s*` around it
trim surrounding whitespace into the separators. -/
def parsePhraseAlign (l : Str) : Option (Str × Str × Str) :=
  match l with
  | c0 :: rest =>
      if c0 = 'S' then
        let ds := rest.takeWhile Char.isDigit
        let r := rest.dropWhile Char.isDigit
        if ds.isEmpty then none
        else
          match lstrip r with
          | c1 :: r2 =>
              if c1 = '~' then
                match splitAtChar '~' (lstrip r2) with
                | some (before, after) =>
                    some ('S' :: ds, rstrip before, lstrip after)
                | none => none
              else none
          | _ => none
      else none
  | _ => none

/-- `RE_S_LEMMA_LINE = ^(S\d+)\s*::\s*(.*)$` with `re.match`. -/
def parseLemmaLine (l : Str) : Option (Str × Str) :=
  match l with
  | c0 :: rest =>
      if c0 = 'S' then
        let ds := rest.takeWhile Char.isDigit
        let r := rest.dropWhile Char.isDigit
        if ds.isEmpty then none
        else
          match lstrip r with
          | c1 :: c2 :: r2 =>
              if c1 = ':' ∧ c2 = ':' then some ('S' :: ds, lstrip r2) else none
          | _ => none
      else none
  | _ => none

/-- `RE_S_ID_FORMAT = ^S\d+$` with `re.match`. -/
def matchesSId (l : Str) : Bool :=
  match l with
  | c0 :: rest => c0 = 'S' && !rest.isEmpty && rest.all Char.isDigit
  | _ => false

def isAsciiLetter (c : Char) : Bool :=
  ('A' ≤ c && c ≤ 'Z') || ('a' ≤ c && c ≤ 'z')

/-- The tail `\s*\(([A-Za-z])\)$` of `RE_DIGLOT_ENTRY`, applied after the `)`
closing group 3: greedy whitespace, then exactly `(`, one letter, `)`, end. -/
def diglotTail (l : Str) : Option Char :=
  match lstrip l with
  | [c1, c, c2] =>
      if c1 = '(' ∧ c2 = ')' then
        if isAsciiLetter c then some c else none
      else none
  | _ => none

/-- Lazy scan for the `)` closing group 3 of `RE_DIGLOT_ENTRY`:
first `)` whose remainder matches `diglotTail` wins. -/
def findClose (acc : Str) : Str → Option (Str × Char)
  | [] => none
  | x :: xs =>
      if x = ')' then
        match diglotTail xs with
        | some c => some (acc.reverse, c)
        | none => findClose (x :: acc) xs
      else findClose (x :: acc) xs

/-- Lazy scan for the `(` opening group 3 of `RE_DIGLOT_ENTRY`. -/
def findOpen (acc : Str) : Str → Option (Str × Str × Char)
  | [] => none
  | x :: xs =>
      if x = '(' then
        match findClose [] xs with
        | some (g3, c) => some (acc.reverse, g3, c)
        | none => findOpen (x :: acc) xs
      else findOpen (x :: acc) xs

/-- Lazy scan for the `->` of `RE_DIGLOT_ENTRY`: at each `->` occurrence, in
order, try the rest of the pattern; the first success fixes the groups. -/
def findArrow (acc : Str) : Str → Option (Str × Str × Str × Char)
  | [] => none
  | [_] => none
  | x :: x2 :: xs =>
      if x = '-' ∧ x2 = '>' then
        match findOpen [] xs with
        | some (g2, g3, c) => some (acc.reverse, g2, g3, c)
        | none => findArrow (x :: acc) (x2 :: xs)
      else findArrow (x :: acc) (x2 :: xs)

/-- `RE_DIGLOT_ENTRY = ^(.*?)->(.*?)\((.*?)\)\s*\(([A-Za-z])\)$` with
`re.match`: groups `(EngWord, SpaLemma, ExactSpaForm, ViabilityFlag)` of the
first match in lazy backtracking order. -/
def parseDiglotEntry (l : Str) : Option (Str × Str × Str × Char) :=
  findArrow [] l

-- === get_section_content ===

/-- Scan for the first line satisfying `p`; returns (lines before, that line,
lines after).  Implements the `for i, line in enumerate(...)` search. -/
def splitAtMarker (p : Str → Bool) : List Str → Option (List Str × Str × List Str)
  | [] => none
  | l :: ls =>
      if p l then some ([], l, ls)
      else (splitAtMarker p ls).map (fun t => (l :: t.1, t.2.1, t.2.2))

/-- Content found on the marker line itself, after the marker token. -/
def inlineContent (marker : Str) (markerLine : Str) : List Str :=
  let ms := strip markerLine
  if marker.length < ms.length then
    let c := strip (ms.drop marker.length)
    if c.isEmpty then [] else [c]
  else []

/-- `get_section_content(original_block_lines, start_marker, all_known_markers)`.
`none` models the Python `(None, None)`; otherwise the content lines
(stripped, blanks dropped) and the marker's line index.  The section span
runs to the line before the next line starting with any known marker. -/
def get_section_content (lines : List Str) (marker : Str) (allM : List Str) :
    Option (List Str × Nat) :=
  match splitAtMarker (startsWithMarker marker) lines with
  | none => none
  | some (pre, markerLine, rest) =>
      let body := rest.takeWhile (fun l => !anyMarker allM l)
      some (inlineContent marker markerLine ++
              (body.map strip).filter (fun l => !l.isEmpty),
            pre.length)

-- === Error message builders (verbatim Python f-strings) ===

def msgEmptyBlock : Str := lit ("Block is empty or contains only whitespace.")

def msgPremature : Str := lit ("Block contains premature END_SENTENCE marker(s).")

def msgMissing (marker : Str) : Str :=
  lit ("Missing required section marker: ") ++ marker

def msgDupReq (marker : Str) (first new : Nat) : Str :=
  lit ("Duplicate required section marker: ") ++ marker ++ lit (" (first at line ") ++
    natToStr (first + 1) ++ lit (", new at ") ++ natToStr (new + 1) ++ lit (").")

def msgDupOpt (marker : Str) (first new : Nat) : Str :=
  lit ("Duplicate optional section marker: ") ++ marker ++ lit (" (first at line ") ++
    natToStr (first + 1) ++ lit (", new at ") ++ natToStr (new + 1) ++ lit (").")

def msgOrder (marker : Str) (idx : Nat) (prev : Str) : Str :=
  lit ("Section ") ++ marker ++ lit (" (at line ") ++ natToStr (idx + 1) ++
    lit (") appears out of expected order relative to ") ++ prev ++ lit (".")

/-- `SimS_Segments:: ` message prefix. -/
def smsg (rest : Str) : Str := mSimS_Segments ++ [' '] ++ rest

def msgP2Fail : Str :=
  smsg (lit ("marker found but content extraction failed (internal helper error)."))

def msgP2NoLines : Str :=
  smsg (lit ("section is present but has no segment definition lines."))

def msgP2Invalid (i : Nat) (line : Str) : Str :=
  smsg (lit ("Line ") ++ natToStr (i + 1) ++ lit (" (") ++ sq ++ line.take 40 ++
    lit ("...") ++ sq ++ lit (") invalid format (expected S<n>(content))."))

def msgP2NoContent (sid : Str) : Str :=
  smsg (lit ("Segment ") ++ sid ++ lit (" has no content in parentheses."))

def msgP2Dup (sid : Str) : Str :=
  smsg (lit ("Duplicate segment ID: ") ++ sid)

def msgP2Seq (found expected : List Str) : Str :=
  smsg (lit ("IDs not sequential. Found: ") ++ pyListRepr found ++
    lit (", Expected: ") ++ pyListRepr expected)

/-- `PHRASE_ALIGN:: ` message prefix. -/
def pamsg (rest : Str) : Str := mPHRASE_ALIGN ++ [' '] ++ rest

def msgP3Fail : Str := pamsg (lit ("marker found but content extraction failed."))

def msgP3Empty : Str := pamsg (lit ("section empty but SimS_Segments exist."))

def msgP3Count (found expect : Nat) : Str :=
  pamsg (lit ("Line count (") ++ natToStr found ++
    lit (") differs from SimS_Segments count (") ++ natToStr expect ++ lit (")."))

def msgP3Invalid (i : Nat) (line : Str) : Str :=
  pamsg (lit ("Line ") ++ natToStr (i + 1) ++ lit (" (") ++ sq ++ line.take 40 ++
    lit ("...") ++ sq ++ lit (") invalid format (expected S<n> ~ span ~ span)."))

def msgP3Unknown (i : Nat) (sid : Str) : Str :=
  pamsg (lit ("Line ") ++ natToStr (i + 1) ++ lit (" uses unknown segment ID: ") ++ sid)

def msgP3Span1 (i : Nat) (sid : Str) : Str :=
  pamsg (lit ("Line ") ++ natToStr (i + 1) ++ lit (" (ID ") ++ sid ++
    lit (") has empty first span."))

def msgP3Span2 (i : Nat) (sid : Str) : Str :=
  pamsg (lit ("Line ") ++ natToStr (i + 1) ++ lit (" (ID ") ++ sid ++
    lit (") has empty second span."))

/-- `SimSL:: ` message prefix. -/
def slmsg (rest : Str) : Str := mSimSL ++ [' '] ++ rest

def msgP4Fail : Str := slmsg (lit ("marker found but content extraction failed."))

def msgP4Empty : Str := slmsg (lit ("section empty but SimS_Segments exist."))

def msgP4Count (found expect : Nat) : Str :=
  slmsg (lit ("Line count (") ++ natToStr found ++
    lit (") differs from SimS_Segments count (") ++ natToStr expect ++ lit (")."))

def msgP4Invalid (i : Nat) (line : Str) : Str :=
  slmsg (lit ("Line ") ++ natToStr (i + 1) ++ lit (" (") ++ sq ++ line.take 40 ++
    lit ("...") ++ sq ++ lit (") invalid format (expected S<n> :: lemmas)."))

def msgP4Unknown (i : Nat) (sid : Str) : Str :=
  slmsg (lit ("Line ") ++ natToStr (i + 1) ++ lit (" uses unknown segment ID: ") ++ sid)

def msgP4Dup (sid : Str) : Str :=
  slmsg (lit ("Duplicate S-ID line for segment: ") ++ sid)

def msgP4Missing (sid : Str) : Str :=
  slmsg (lit ("Missing S-ID line for segment: ") ++ sid)

/-- `AdvSL:: ` message prefix. -/
def almsg (rest : Str) : Str := mAdvSL ++ [' '] ++ rest

def msgP5Fail : Str := almsg (lit ("marker found but content extraction failed."))

def msgP5Multi : Str :=
  almsg (lit ("section has multiple content lines; expected one logical line of lemmas."))

/-- `DIGLOT_MAP:: ` message prefix. -/
def dmsg (rest : Str) : Str := mDIGLOT_MAP ++ [' '] ++ rest

def msgP6Fail : Str := dmsg (lit ("marker found but content extraction failed."))

def msgP6Empty : Str :=
  dmsg (lit ("section empty but SimS_Segments exist (expected S-ID lines for DIGLOT_MAP)."))

def msgP6Invalid (i : Nat) (line : Str) : Str :=
  dmsg (lit ("Line ") ++ natToStr (i + 1) ++ lit (" (") ++ sq ++ line.take 40 ++
    lit ("...") ++ sq ++ lit (") invalid S-ID header format (expected S<n> :: entries)."))

def msgP6Unknown (i : Nat) (sid : Str) : Str :=
  dmsg (lit ("Line ") ++ natToStr (i + 1) ++ lit (" (S-ID header ") ++ sq ++ sid ++ sq ++
    lit (") uses unknown segment ID not defined in SimS_Segments."))

def msgP6Dup (sid : Str) : Str :=
  dmsg (lit ("Duplicate S-ID line for segment: ") ++ sid)

/-- Common prefix `DIGLOT_MAP:: S-ID {sid}, ` of the per-entry messages. -/
def dsidmsg (sid : Str) (rest : Str) : Str :=
  dmsg (lit ("S-ID ") ++ sid ++ lit (", ") ++ rest)

def msgP6EmptyPart (sid : Str) (entries : Str) : Str :=
  dsidmsg sid (lit ("found empty entry part (likely due to ") ++ sq ++ lit ("||") ++ sq ++
    lit (" or trailing/leading ") ++ sq ++ lit ("|") ++ sq ++
    lit ("). Full entry string: ") ++ sq ++ entries ++ sq)

/-- Common prefix `entry '{part[:30]}...' ` of the per-entry field messages. -/
def entrymsg (sid : Str) (part : Str) (rest : Str) : Str :=
  dsidmsg sid (lit ("entry ") ++ sq ++ part.take 30 ++ lit ("...") ++ sq ++ [' '] ++ rest)

def msgP6Malformed (sid : Str) (part : Str) : Str :=
  entrymsg sid part (lit ("malformed (failed basic regex)."))

def msgP6EmptyEng (sid : Str) (part : Str) : Str :=
  entrymsg sid part (lit ("has empty EngWord."))

def msgP6EmptySpa (sid : Str) (part : Str) : Str :=
  entrymsg sid part (lit ("has empty SpaLemma."))

def msgP6EmptyForm (sid : Str) (part : Str) : Str :=
  entrymsg sid part (lit ("has empty ExactSpaForm."))

def msgP6BadFlag (sid : Str) (part : Str) (c : Char) : Str :=
  entrymsg sid part (lit ("has invalid ViabilityFlag character: ") ++ sq ++ [c] ++ sq ++
    lit (". Expected Y or N."))

def msgP6Missing (sid : Str) : Str :=
  dmsg (lit ("Missing S-ID line for segment defined in SimS_Segments: ") ++ sid)

/-- `LOCKED_PHRASE:: ` message prefix. -/
def lpmsg (rest : Str) : Str := mLOCKED_PHRASE ++ [' '] ++ rest

def msgP7Fail : Str := lpmsg (lit ("marker found but content extraction failed."))

def msgP7Multi : Str :=
  lpmsg (lit ("section has multiple content lines; expected one."))

def msgP7NonSId (tok : Str) : Str :=
  lpmsg (lit ("Contains non-S<n> formatted ID: ") ++ sq ++ tok ++ sq)

def msgP7Unknown (tok : Str) : Str :=
  lpmsg (lit ("Uses unknown segment ID: ") ++ tok)

-- === Phase 1: marker scan ===

/-- Indices (0-based) of all lines whose trimmed text starts with the marker;
`i` is the index of the first line in the remaining list. -/
def markerHitsGo (p : Str → Bool) (i : Nat) : List Str → List Nat
  | [] => []
  | l :: ls => (if p l then [i] else []) ++ markerHitsGo p (i + 1) ls

def markerHits (lines : List Str) (m : Str) : List Nat :=
  markerHitsGo (startsWithMarker m) 0 lines

/-- Errors produced by the required-marker loop for one marker: the first hit
is recorded; each later hit yields a duplicate error; no hit, a missing error. -/
def scanReqErrs (lines : List Str) (m : Str) : List Str :=
  match markerHits lines m with
  | [] => [msgMissing m]
  | first :: rest => rest.map (fun j => msgDupReq m first j)

/-- Errors produced by the optional-marker loop (absence is not an error). -/
def scanOptErrs (lines : List Str) (m : Str) : List Str :=
  match markerHits lines m with
  | [] => []
  | first :: rest => rest.map (fun j => msgDupOpt m first j)

/-- All Phase-1 marker scan errors, in the source's accumulation order. -/
def markerScanErrs (lines : List Str) : List Str :=
  (REQUIRED_SECTION_MARKERS.flatMap (scanReqErrs lines)) ++
    (OPTIONAL_SECTION_MARKERS.flatMap (scanOptErrs lines))

/-- `marker_indices[marker]` for a required marker: the first hit's index.
The order check only runs when every required marker was found, so the
default `0` of the no-hit case is never observed (it mirrors the guarded
Python dict access). -/
def requiredIdx (lines : List Str) (m : Str) : Nat :=
  (markerHits lines m).headD 0

/-- The required-marker order check.  `last` starts at `-1` as in the source;
the message names the previous catalog marker.  (At position 0 the condition
`idx < -1` is impossible, so the out-of-range `REQUIRED[i-1]` of the source is
never evaluated; `headD` supplies a harmless default.) -/
def orderErrsGo (lines : List Str) (last : Int) : Nat → List Str → List Str
  | _, [] => []
  | i, m :: rest =>
      let cur := requiredIdx lines m
      (if (cur : Int) < last then
        [msgOrder m cur ((REQUIRED_SECTION_MARKERS.drop (i - 1)).headD [])]
       else []) ++ orderErrsGo lines (cur : Int) (i + 1) rest

def orderErrs (lines : List Str) : List Str :=
  orderErrsGo lines (-1) 0 REQUIRED_SECTION_MARKERS

-- === Phase 2: SimS_Segments ===

/-- Python `set.add` on the insertion-ordered list model. -/
def setInsert (s : List Str) (x : Str) : List Str :=
  if x ∈ s then s else s ++ [x]

/-- State of the Phase-2 loop: errors so far, `s_segment_ids_ordered`,
`s_segment_ids_set`. -/
structure P2State where
  errs : List Str
  ordered : List Str
  idset : List Str

def phase2Go (i : Nat) (st : P2State) : List Str → P2State
  | [] => st
  | line :: rest =>
      match parseSegLine line with
      | none =>
          phase2Go (i + 1)
            { st with errs := st.errs ++ [msgP2Invalid i line] } rest
      | some (sid, scontent) =>
          let e1 := if scontent.isEmpty then [msgP2NoContent sid] else []
          let e2 := if sid ∈ st.idset then [msgP2Dup sid] else []
          phase2Go (i + 1)
            { errs := st.errs ++ e1 ++ e2,
              ordered := st.ordered ++ [sid],
              idset := setInsert st.idset sid } rest

/-- The Phase-2 body once content lines are in hand: per-line checks plus the
final sequential-ids comparison.  Returns (errors, ordered ids, id set). -/
def phase2Content (content : List Str) : List Str × List Str × List Str :=
  let st := phase2Go 0 ⟨[], [], []⟩ content
  let expected := (List.range st.ordered.length).map (fun j => 'S' :: natToStr (j + 1))
  (st.errs ++
     (if st.ordered = expected then [] else [msgP2Seq st.ordered expected]),
   st.ordered, st.idset)

def phase2 (lines : List Str) : List Str × List Str × List Str :=
  match get_section_content lines mSimS_Segments ALL_POSSIBLE_MARKERS with
  | none => ([msgP2Fail], [], [])
  | some (content, _) =>
      if content.isEmpty then ([msgP2NoLines], [], [])
      else phase2Content content

-- === Phase 3: PHRASE_ALIGN ===

def phase3Go (idset : List Str) (i : Nat) : List Str → List Str
  | [] => []
  | line :: rest =>
      (match parsePhraseAlign line with
       | none => [msgP3Invalid i line]
       | some (sid, span1, span2) =>
           (if sid ∈ idset then [] else [msgP3Unknown i sid]) ++
           (if (strip span1).isEmpty then [msgP3Span1 i sid] else []) ++
           (if (strip span2).isEmpty then [msgP3Span2 i sid] else [])) ++
      phase3Go idset (i + 1) rest

def phase3 (lines : List Str) (idset : List Str) : List Str :=
  match get_section_content lines mPHRASE_ALIGN ALL_POSSIBLE_MARKERS with
  | none => [msgP3Fail]
  | some (content, _) =>
      if content.isEmpty then
        if idset.isEmpty then [] else [msgP3Empty]
      else
        (if content.length = idset.length then []
         else [msgP3Count content.length idset.length]) ++
        phase3Go idset 0 content

-- === Phase 4: SimSL ===

def phase4Go (idset : List Str) (i : Nat) (found : List Str) :
    List Str → List Str × List Str
  | [] => ([], found)
  | line :: rest =>
      match parseLemmaLine line with
      | none =>
          let t := phase4Go idset (i + 1) found rest
          (msgP4Invalid i line :: t.1, t.2)
      | some (sid, _lemmas) =>
          let here :=
            (if sid ∈ idset then [] else [msgP4Unknown i sid]) ++
            (if sid ∈ found then [msgP4Dup sid] else [])
          let t := phase4Go idset (i + 1) (setInsert found sid) rest
          (here ++ t.1, t.2)

def phase4 (lines : List Str) (idset : List Str) : List Str :=
  match get_section_content lines mSimSL ALL_POSSIBLE_MARKERS with
  | none => [msgP4Fail]
  | some (content, _) =>
      if content.isEmpty then
        if idset.isEmpty then [] else [msgP4Empty]
      else
        let t := phase4Go idset 0 [] content
        (if content.length = idset.length then []
         else [msgP4Count content.length idset.length]) ++
        t.1 ++
        (idset.filter (fun sid => !(sid ∈ t.2 : Bool))).map msgP4Missing

-- === Phase 5: AdvSL ===

def phase5 (lines : List Str) : List Str :=
  match get_section_content lines mAdvSL ALL_POSSIBLE_MARKERS with
  | none => [msgP5Fail]
  | some (content, _) =>
      if 1 < content.length then [msgP5Multi] else []

-- === Phase 6: DIGLOT_MAP ===

/-- Per-candidate processing of one `|`-separated entry candidate
(`entry_idx`-th part of `entries_str`). -/
def diglotPartErrs (sid : Str) (entries : Str) (idx : Nat) (part : Str) :
    List Str :=
  let ps := strip part
  if ps.isEmpty then
    if 0 < entries.count '|' ∧ 0 < idx ∧ idx < entries.count '|' then
      [msgP6EmptyPart sid entries]
    else []
  else
    match parseDiglotEntry ps with
    | none => [msgP6Malformed sid ps]
    | some (eng, spa, form, flag) =>
        (if (strip eng).isEmpty then [msgP6EmptyEng sid ps] else []) ++
        (if (strip spa).isEmpty then [msgP6EmptySpa sid ps] else []) ++
        (if (strip form).isEmpty then [msgP6EmptyForm sid ps] else []) ++
        (if flag = 'Y' ∨ flag = 'N' then [] else [msgP6BadFlag sid ps flag])

def diglotPartsGo (sid : Str) (entries : Str) (idx : Nat) :
    List Str → List Str
  | [] => []
  | part :: rest =>
      diglotPartErrs sid entries idx part ++ diglotPartsGo sid entries (idx + 1) rest

/-- The entry loop for one `S<n> :: entries` line (runs only when the entries
string is non-blank). -/
def diglotEntriesErrs (sid : Str) (entries : Str) : List Str :=
  diglotPartsGo sid entries 0 (splitChar '|' entries)

def phase6Go (idset : List Str) (i : Nat) (found : List Str) :
    List Str → List Str × List Str
  | [] => ([], found)
  | line :: rest =>
      match parseLemmaLine line with
      | none =>
          let t := phase6Go idset (i + 1) found rest
          (msgP6Invalid i line :: t.1, t.2)
      | some (sid, entries) =>
          let here :=
            (if sid ∈ idset then [] else [msgP6Unknown i sid]) ++
            (if sid ∈ found then [msgP6Dup sid] else []) ++
            (if (strip entries).isEmpty then [] else diglotEntriesErrs sid entries)
          let t := phase6Go idset (i + 1) (setInsert found sid) rest
          (here ++ t.1, t.2)

def phase6 (lines : List Str) (idset : List Str) : List Str :=
  match get_section_content lines mDIGLOT_MAP ALL_POSSIBLE_MARKERS with
  | none => [msgP6Fail]
  | some (content, _) =>
      if content.isEmpty then
        if idset.isEmpty then [] else [msgP6Empty]
      else
        let t := phase6Go idset 0 [] content
        t.1 ++
        (idset.filter (fun sid => !(sid ∈ t.2 : Bool))).map msgP6Missing

-- === Phase 7: LOCKED_PHRASE (optional) ===

def lockedTokErrs (idset : List Str) (tok : Str) : List Str :=
  if !matchesSId tok then [msgP7NonSId tok]
  else if tok ∈ idset then [] else [msgP7Unknown tok]

def phase7 (lines : List Str) (idset : List Str) : List Str :=
  if (markerHits lines mLOCKED_PHRASE).isEmpty then []
  else
    match get_section_content lines mLOCKED_PHRASE ALL_POSSIBLE_MARKERS with
    | none => [msgP7Fail]
    | some (content, _) =>
        if 1 < content.length then [msgP7Multi]
        else
          match content with
          | [] => []
          | c0 :: _ =>
              if (strip c0).isEmpty then []
              else (splitWsWords c0).flatMap (lockedTokErrs idset)

-- === validate_llm_block ===

/-- Phases 2–7, reached only when Phases 0–1 produced no errors. -/
def sectionPhases (lines : List Str) : List Str :=
  let p2 := phase2 lines
  p2.1 ++ phase3 lines p2.2.2 ++ phase4 lines p2.2.2 ++ phase5 lines ++
    phase6 lines p2.2.2 ++ phase7 lines p2.2.2

/-- `validate_llm_block(block_text)`. -/
def validate_llm_block (block_text : Str) : List Str :=
  let original_lines := splitlines block_text
  let nonBlank := (original_lines.map strip).filter (fun l => !l.isEmpty)
  if nonBlank.isEmpty then [msgEmptyBlock]
  else
    let e0 := if nonBlank.any (containsSub esTok) then [msgPremature] else []
    let e1 := markerScanErrs original_lines
    if (e0 ++ e1).isEmpty then
      let eo := orderErrs original_lines
      if eo.isEmpty then sectionPhases original_lines else eo
    else e0 ++ e1


-- === Concrete blocks used by witnesses and counterexamples ===

/-- The §8 end-to-end example block. -/
def ex8Block : Str :=
  lit ("AdvS:: a\nSimS:: s\nSimE:: e\nSimS_Segments::\nS1(x)\nPHRASE_ALIGN::\nS1 ~ a ~ b\nSimSL::\nS1 :: l\nAdvSL:: la\nDIGLOT_MAP::\nS1 :: E->S(F)(Y)\n")

/-- All eight markers present once and in order, an `END_SENTENCE` line, and a
Phase-2-detectable defect (`SimS_Segments::` has no segment lines). -/
def endSentenceBlock : Str :=
  lit ("AdvS:: a\nSimS:: s\nSimE:: e\nSimS_Segments::\nPHRASE_ALIGN::\nS1 ~ a ~ b\nSimSL::\nS1 :: l\nAdvSL:: la\nDIGLOT_MAP::\nS1 :: E->S(F)(Y)\nEND_SENTENCE")

/-- The §8 example with a leading `|` in the `DIGLOT_MAP::` entries string. -/
def leadingPipeBlock : Str :=
  lit ("AdvS:: a\nSimS:: s\nSimE:: e\nSimS_Segments::\nS1(x)\nPHRASE_ALIGN::\nS1 ~ a ~ b\nSimSL::\nS1 :: l\nAdvSL:: la\nDIGLOT_MAP::\nS1 :: |E->S(F)(Y)\n")

/-- Every error appended inside the Phase-2 per-line loop starts (after the
`SimS_Segments:: ` prefix) with `L`, `S` or `D` — never with `I` like the
IDs-not-sequential message. -/
def isP2LoopMsg (e : Str) : Prop :=
  (∃ r, e = smsg ('L' :: r)) ∨ (∃ r, e = smsg ('S' :: r)) ∨ (∃ r, e = smsg ('D' :: r))

-- === §6-conforming blocks, rendered canonically ===

/-- One `DIGLOT_MAP::` entry `EngWord->SpaLemma(ExactSpaForm)(ViabilityFlag)`. -/
structure DEntry where
  eng : Str
  spa : Str
  form : Str
  flag : Char

/-- One segment of a §6-conforming block: its `SimS_Segments::` content, its
two `PHRASE_ALIGN::` spans, its `SimSL::` lemma text and its `DIGLOT_MAP::`
entries. -/
structure SegSpec where
  content : Str
  span1 : Str
  span2 : Str
  lemtext : Str
  entries : List DEntry

/-- The data of a §6-conforming block with `k = segs.length` segments. -/
structure GoodBlock where
  advs : Str
  sims : Str
  sime : Str
  advsl : Str
  segs : List SegSpec

def renderEntry (e : DEntry) : Str :=
  e.eng ++ ['-', '>'] ++ e.spa ++ ['('] ++ e.form ++ [')', '('] ++ [e.flag] ++ [')']

def renderEntries (es : List DEntry) : Str :=
  joinSep (lit (" | ")) (es.map renderEntry)

/-- `S<n>` -/
def segIdStr (n : Nat) : Str := 'S' :: natToStr n

def segLine (i : Nat) (s : SegSpec) : Str :=
  segIdStr (i + 1) ++ ['('] ++ s.content ++ [')']

def alignLine (i : Nat) (s : SegSpec) : Str :=
  segIdStr (i + 1) ++ lit (" ~ ") ++ s.span1 ++ lit (" ~ ") ++ s.span2

def simslLine (i : Nat) (s : SegSpec) : Str :=
  segIdStr (i + 1) ++ lit (" :: ") ++ s.lemtext

def diglotLine (i : Nat) (s : SegSpec) : Str :=
  segIdStr (i + 1) ++ lit (" ::") ++
    (if s.entries.isEmpty then [] else ' ' :: renderEntries s.entries)

def mapIdxGo (f : Nat → SegSpec → Str) (i : Nat) : List SegSpec → List Str
  | [] => []
  | s :: rest => f i s :: mapIdxGo f (i + 1) rest

/-- The §6 template, one line per list entry. -/
def renderLines (gb : GoodBlock) : List Str :=
  [mAdvS ++ [' '] ++ gb.advs, mSimS ++ [' '] ++ gb.sims, mSimE ++ [' '] ++ gb.sime,
    mSimS_Segments] ++
  mapIdxGo segLine 0 gb.segs ++
  [mPHRASE_ALIGN] ++ mapIdxGo alignLine 0 gb.segs ++
  [mSimSL] ++ mapIdxGo simslLine 0 gb.segs ++
  [mAdvSL ++ [' '] ++ gb.advsl, mDIGLOT_MAP] ++ mapIdxGo diglotLine 0 gb.segs

/-- The block text: the lines joined with newlines. -/
def renderBlock (gb : GoodBlock) : Str := joinSep ['\n'] (renderLines gb)

/-- No line-break characters (so the text stays on one physical line). -/
def noLB (s : Str) : Bool := s.all (fun c => !isLineBreakChar c)

/-- Non-empty, no leading or trailing whitespace, no line breaks. -/
def strippedNE (s : Str) : Bool :=
  !s.isEmpty && !isWsChar (s.headD ' ') && !isWsChar (s.reverse.headD ' ') && noLB s

/-- A well-formed `PHRASE_ALIGN::` span: non-blank, one line, no `~`. -/
def spanOk (s : Str) : Bool :=
  strippedNE s && s.all (fun c => !(c = '~'))

/-- A well-formed `DIGLOT_MAP::` entry field: non-blank, one line, free of
the separator characters of the entry syntax. -/
def fieldOk (s : Str) : Bool :=
  strippedNE s &&
    s.all (fun c => !(c = '-') && !(c = '>') && !(c = '(') && !(c = ')') && !(c = '|'))

def entryOk (e : DEntry) : Bool :=
  fieldOk e.eng && fieldOk e.spa && fieldOk e.form && (e.flag = 'Y' || e.flag = 'N')

def segOk (s : SegSpec) : Bool :=
  !s.content.isEmpty && noLB s.content &&
    spanOk s.span1 && spanOk s.span2 && strippedNE s.lemtext &&
    s.entries.all entryOk

/-- §6 conformance of the rendered block: all free-text fields are single
non-blank lines, every segment is well-formed (non-empty content, non-empty
spans, well-formed entries with `Y`/`N` flags), there is at least one
segment, and no line contains a premature `END_SENTENCE`. -/
def goodBlockOk (gb : GoodBlock) : Bool :=
  strippedNE gb.advs && strippedNE gb.sims && strippedNE gb.sime &&
    strippedNE gb.advsl && !gb.segs.isEmpty && gb.segs.all segOk &&
    (renderLines gb).all (fun l => !containsSub esTok (strip l))

/-- The `GoodBlock` whose rendering is the §8 example block. -/
def exGB : GoodBlock :=
  { advs := lit ("a"), sims := lit ("s"), sime := lit ("e"), advsl := lit ("la"),
    segs := [{ content := lit ("x"), span1 := lit ("a"), span2 := lit ("b"),
               lemtext := lit ("l"),
               entries := [{ eng := lit ("E"), spa := lit ("S"), form := lit ("F"),
                             flag := 'Y' }] }] }

/-- `["S1", ..., "Sk"]` -/
def segIds (k : Nat) : List Str := (List.range k).map (fun j => segIdStr (j + 1))

-- ============================================================
-- Theorems
-- ============================================================

theorem nonBlankFilter_eq_nil (ls : List Str) (h : ∀ l ∈ ls, strip l = []) :
    (ls.map strip).filter (fun l => !l.isEmpty) = [] := by
  induction ls with
  | nil => rfl
  | cons a t ih =>
      have ha := h a (by simp)
      simp only [List.map_cons, List.filter_cons, ha]
      simp [ih (fun l hl => h l (by simp [hl]))]

/-- **C7.** For the empty string and for every input all of whose lines are
entirely whitespace, `validate_llm_block` returns exactly
`["Block is empty or contains only whitespace."]`: no other error is appended
and no further check runs. -/
theorem C7_whitespace_only_single_error (block : Str)
    (h : ∀ l ∈ splitlines block, strip l = []) :
    validate_llm_block block = [msgEmptyBlock] := by
  have hnb := nonBlankFilter_eq_nil (splitlines block) h
  simp [validate_llm_block, hnb]

theorem C7_witness :
    (∀ l ∈ splitlines (lit ("   \n\n   \t  ")), strip l = []) ∧
      validate_llm_block (lit ("   \n\n   \t  ")) = [msgEmptyBlock] :=
  ⟨by decide, C7_whitespace_only_single_error (lit ("   \n\n   \t  ")) (by decide)⟩

/-- **C2 (counterexample).** A block whose eight required markers are present
exactly once and in catalog order, which contains an `END_SENTENCE` line, and
whose `SimS_Segments::` section is empty (a Phase-2-detectable defect):
`validate_llm_block` returns only the premature-END_SENTENCE error — the
Phase 2–7 checks are *not* performed, contradicting the claim that only
Phase-0/Phase-1 marker errors short-circuit. -/
theorem C2_counterexample :
    validate_llm_block endSentenceBlock = [msgPremature] ∧
      msgP2NoLines ∉ validate_llm_block endSentenceBlock := by
  constructor
  · decide
  · decide

/-- **C2 (amended).** The premature-END_SENTENCE diagnostic *is* block-fatal:
whenever the non-blank view is non-empty and some non-blank line contains the
substring `END_SENTENCE`, `validate_llm_block` returns at the early exit after
the Phase-1 marker scan — the result is exactly the premature error followed
by the marker-scan errors, and neither the order check nor any Phase 2–7
section check contributes. -/
theorem C2_amended_end_sentence_is_fatal (block : Str)
    (hnb : (((splitlines block).map strip).filter (fun l => !l.isEmpty)).isEmpty
             = false)
    (hes : (((splitlines block).map strip).filter (fun l => !l.isEmpty)).any
             (containsSub esTok) = true) :
    validate_llm_block block = msgPremature :: markerScanErrs (splitlines block) := by
  simp [validate_llm_block, hnb, hes]

theorem C2_amended_witness :
    validate_llm_block endSentenceBlock =
      msgPremature :: markerScanErrs (splitlines endSentenceBlock) :=
  C2_amended_end_sentence_is_fatal endSentenceBlock (by decide) (by decide)

/-- **C3 (counterexample).** A `DIGLOT_MAP::` entries string with a *leading*
`|` produces an empty candidate, yet `validate_llm_block` reports nothing at
all — contradicting the claim that leading/trailing-`|` empties are reported. -/
theorem C3_counterexample :
    validate_llm_block leadingPipeBlock = [] ∧
      msgP6EmptyPart (lit ("S1")) (lit ("|E->S(F)(Y)")) ∉
        validate_llm_block leadingPipeBlock := by
  constructor
  · decide
  · decide

/-- **C3 (amended).** An empty (after trimming) `|`-split candidate of a
`DIGLOT_MAP::` entries string is reported if and only if its index is
*interior*: strictly greater than 0 and strictly less than the number of `|`
characters (so candidates produced by a leading or a trailing `|` are skipped
silently; only `||`-style interior empties are reported). -/
theorem C3_amended_interior_empty_parts (sid entries : Str) (idx : Nat)
    (part : Str) (h : strip part = []) :
    diglotPartErrs sid entries idx part =
      if 0 < idx ∧ idx < entries.count '|' then [msgP6EmptyPart sid entries]
      else [] := by
  unfold diglotPartErrs
  rw [h]
  simp only [List.isEmpty_nil, if_true]
  by_cases hc : 0 < idx ∧ idx < entries.count '|'
  · have h3 : 0 < entries.count '|' ∧ 0 < idx ∧ idx < entries.count '|' :=
      ⟨by omega, hc⟩
    rw [if_pos h3, if_pos hc]
  · have h3 : ¬ (0 < entries.count '|' ∧ 0 < idx ∧ idx < entries.count '|') := by
      intro hx
      exact hc ⟨hx.2.1, hx.2.2⟩
    rw [if_neg h3, if_neg hc]

theorem C3_amended_witness :
    diglotPartErrs (lit ("S1")) (lit ("a||b")) 1 [] =
        [msgP6EmptyPart (lit ("S1")) (lit ("a||b"))] ∧
      diglotPartErrs (lit ("S1")) (lit ("|a")) 0 [] = [] := by
  constructor
  · rw [C3_amended_interior_empty_parts (lit ("S1")) (lit ("a||b")) 1 [] (by decide)]
    decide
  · rw [C3_amended_interior_empty_parts (lit ("S1")) (lit ("|a")) 0 [] (by decide)]
    decide

/-- Block with no `AdvS::` line but every other required marker (a missing
required-marker witness input). -/
def missingAdvSBlock : Str :=
  lit ("SimS:: s\nSimE:: e\nSimS_Segments::\nS1(x)\nPHRASE_ALIGN::\nS1 ~ a ~ b\nSimSL::\nS1 :: l\nAdvSL:: la\nDIGLOT_MAP::\nS1 :: E->S(F)(Y)\n")

theorem markerHitsGo_eq_nil (p : Str → Bool) (i : Nat) (ls : List Str) :
    markerHitsGo p i ls = [] ↔ ∀ l ∈ ls, p l = false := by
  induction ls generalizing i with
  | nil => simp [markerHitsGo]
  | cons a t ih =>
      by_cases hp : p a
      · simp [markerHitsGo, hp]
      · have hpa : p a = false := by simpa using hp
        rw [show markerHitsGo p i (a :: t) = markerHitsGo p (i + 1) t from by
              simp [markerHitsGo, hpa]]
        rw [ih (i + 1)]
        simp [List.forall_mem_cons, hpa]

theorem splitAtMarker_eq_none (p : Str → Bool) (ls : List Str) :
    splitAtMarker p ls = none ↔ ∀ l ∈ ls, p l = false := by
  induction ls with
  | nil => simp [splitAtMarker]
  | cons a t ih =>
      by_cases hp : p a
      · simp [splitAtMarker, hp]
      · have hpa : p a = false := by simpa using hp
        rw [show splitAtMarker p (a :: t) =
              (splitAtMarker p t).map (fun tr => (a :: tr.1, tr.2.1, tr.2.2)) from by
              simp [splitAtMarker, hpa]]
        rw [Option.map_eq_none']
        rw [ih]
        simp [List.forall_mem_cons, hpa]

theorem scanReqErrs_of_no_hit (lines : List Str) (m : Str)
    (h : markerHits lines m = []) : scanReqErrs lines m = [msgMissing m] := by
  unfold scanReqErrs
  rw [h]

theorem flatMap_eq_nil_forall {α β : Type} (f : α → List β) (xs : List α)
    (h : xs.flatMap f = []) : ∀ x ∈ xs, f x = [] := by
  induction xs with
  | nil => simp
  | cons a t ih =>
      rw [List.flatMap_cons, List.append_eq_nil] at h
      intro x hx
      rcases List.mem_cons.mp hx with rfl | hx
      · exact h.1
      · exact ih h.2 x hx

/-- **C6 (counterexample).** The empty block vacuously satisfies "some required
marker never occurs as a prefix of any trimmed line", yet the validator
returns only the emptiness error and no missing-marker error — the claim
fails for blocks whose non-blank view is empty. -/
theorem C6_counterexample :
    (∀ m ∈ REQUIRED_SECTION_MARKERS, ∀ l ∈ splitlines [], startsWithMarker m l = false) ∧
      validate_llm_block [] = [msgEmptyBlock] ∧
      msgMissing mAdvS ∉ validate_llm_block [] := by
  refine ⟨by decide, by decide, by decide⟩

/-- **C6 (amended).** For every block with at least one non-blank line in
which some required marker never occurs as the prefix of any trimmed line,
the result contains `Missing required section marker: <marker>` for each such
marker, and the result is exactly the Phase-0/Phase-1 error list (premature
END_SENTENCE error, if any, followed by the marker-scan errors): Phase 1
returns immediately, so no Phase 2–7 section-specific error appears. -/
theorem C6_amended_missing_marker (block : Str)
    (hnb : (((splitlines block).map strip).filter (fun l => !l.isEmpty)).isEmpty
             = false)
    (hmiss : ∃ m ∈ REQUIRED_SECTION_MARKERS,
        ∀ l ∈ splitlines block, startsWithMarker m l = false) :
    (∀ m ∈ REQUIRED_SECTION_MARKERS,
        (∀ l ∈ splitlines block, startsWithMarker m l = false) →
          msgMissing m ∈ validate_llm_block block) ∧
      validate_llm_block block =
        (if (((splitlines block).map strip).filter (fun l => !l.isEmpty)).any
              (containsSub esTok)
         then [msgPremature] else []) ++ markerScanErrs (splitlines block) := by
  have hmem : ∀ m ∈ REQUIRED_SECTION_MARKERS,
      (∀ l ∈ splitlines block, startsWithMarker m l = false) →
        msgMissing m ∈ markerScanErrs (splitlines block) := by
    intro m hm hall
    have hhits : markerHits (splitlines block) m = [] :=
      (markerHitsGo_eq_nil _ _ _).mpr hall
    unfold markerScanErrs
    refine List.mem_append_left _ (List.mem_flatMap.mpr ⟨m, hm, ?_⟩)
    rw [scanReqErrs_of_no_hit _ _ hhits]
    simp
  obtain ⟨m0, hm0, hall0⟩ := hmiss
  have hne : markerScanErrs (splitlines block) ≠ [] := by
    intro h
    have := hmem m0 hm0 hall0
    rw [h] at this
    exact absurd this (List.not_mem_nil _)
  have happ : (((if (((splitlines block).map strip).filter (fun l => !l.isEmpty)).any
        (containsSub esTok) then [msgPremature] else []) ++
        markerScanErrs (splitlines block))).isEmpty = false := by
    obtain ⟨a, t, hat⟩ := List.exists_cons_of_ne_nil hne
    rw [hat]
    cases hif : (((splitlines block).map strip).filter (fun l => !l.isEmpty)).any
        (containsSub esTok) <;> simp
  have hv : validate_llm_block block =
      (if (((splitlines block).map strip).filter (fun l => !l.isEmpty)).any
            (containsSub esTok)
       then [msgPremature] else []) ++ markerScanErrs (splitlines block) := by
    unfold validate_llm_block
    simp only [hnb, Bool.false_eq_true, if_false, happ]
  refine ⟨fun m hm hall => ?_, hv⟩
  rw [hv]
  exact List.mem_append_right _ (hmem m hm hall)

theorem C6_amended_witness :
    msgMissing mAdvS ∈ validate_llm_block missingAdvSBlock :=
  (C6_amended_missing_marker missingAdvSBlock (by decide)
      ⟨mAdvS, by decide, by decide⟩).1 mAdvS (by decide) (by decide)

theorem gsc_ne_none_of_hit (lines : List Str) (m : Str) (allM : List Str)
    (h : ¬ ∀ l ∈ lines, startsWithMarker m l = false) :
    get_section_content lines m allM ≠ none := by
  intro hgsc
  unfold get_section_content at hgsc
  rcases hsp : splitAtMarker (startsWithMarker m) lines with _ | ⟨pre, ml, rest⟩
  · exact h ((splitAtMarker_eq_none _ _).mp hsp)
  · rw [hsp] at hgsc
    simp at hgsc

/-- **C9.** Whenever `validate_llm_block` proceeds past Phase 1 (the non-blank
view is non-empty and Phases 0–1 produced no errors), `get_section_content`
returns a non-`none` result for every required marker — and for
`LOCKED_PHRASE::` whenever the Phase-1 scan recorded it — so every
"marker found but content extraction failed" branch of Phases 2–7 is
unreachable under that precondition. -/
theorem C9_extraction_cannot_fail (block : Str)
    (hnb : (((splitlines block).map strip).filter (fun l => !l.isEmpty)).isEmpty
             = false)
    (hes : (((splitlines block).map strip).filter (fun l => !l.isEmpty)).any
             (containsSub esTok) = false)
    (hscan : markerScanErrs (splitlines block) = [])
    (hord : orderErrs (splitlines block) = []) :
    (∀ m ∈ REQUIRED_SECTION_MARKERS,
        get_section_content (splitlines block) m ALL_POSSIBLE_MARKERS ≠ none) ∧
      (markerHits (splitlines block) mLOCKED_PHRASE ≠ [] →
        get_section_content (splitlines block) mLOCKED_PHRASE ALL_POSSIBLE_MARKERS
          ≠ none) := by
  have hreq : ∀ m ∈ REQUIRED_SECTION_MARKERS, scanReqErrs (splitlines block) m = [] := by
    unfold markerScanErrs at hscan
    rw [List.append_eq_nil] at hscan
    exact flatMap_eq_nil_forall _ _ hscan.1
  constructor
  · intro m hm
    apply gsc_ne_none_of_hit
    intro hall
    have hhits : markerHits (splitlines block) m = [] :=
      (markerHitsGo_eq_nil _ _ _).mpr hall
    have hc := hreq m hm
    rw [scanReqErrs_of_no_hit _ _ hhits] at hc
    exact List.noConfusion hc
  · intro hne
    apply gsc_ne_none_of_hit
    intro hall
    exact hne ((markerHitsGo_eq_nil _ _ _).mpr hall)

theorem C9_witness :
    get_section_content (splitlines ex8Block) mSimS_Segments ALL_POSSIBLE_MARKERS
      ≠ none :=
  (C9_extraction_cannot_fail ex8Block (by decide) (by decide) (by decide)
      (by decide)).1 mSimS_Segments (by decide)

theorem takeWhile_eq_self_of_all {α : Type} (p : α → Bool) (xs : List α)
    (h : ∀ x ∈ xs, p x = true) : xs.takeWhile p = xs := by
  induction xs with
  | nil => rfl
  | cons a t ih =>
      rw [List.takeWhile_cons, if_pos (h a (by simp))]
      rw [ih (fun x hx => h x (by simp [hx]))]

theorem takeWhile_append_stop {α : Type} (p : α → Bool) (xs : List α) (y : α)
    (ys : List α) (hall : ∀ x ∈ xs, p x = true) (hy : p y = false) :
    (xs ++ y :: ys).takeWhile p = xs := by
  induction xs with
  | nil => simp [List.takeWhile_cons, hy]
  | cons a t ih =>
      rw [List.cons_append, List.takeWhile_cons, if_pos (hall a (by simp))]
      rw [ih (fun x hx => hall x (by simp [hx]))]

theorem splitAtMarker_found (p : Str → Bool) (pre : List Str) (mk : Str)
    (rest : List Str) (hpre : ∀ l ∈ pre, p l = false) (hmk : p mk = true) :
    splitAtMarker p (pre ++ mk :: rest) = some (pre, mk, rest) := by
  induction pre with
  | nil => simp [splitAtMarker, hmk]
  | cons a t ih =>
      have hpa : p a = false := hpre a (by simp)
      simp [splitAtMarker, hpa, ih (fun l hl => hpre l (by simp [hl]))]

/-- Shape lemma for `get_section_content`: decompose the line list around the
first marker line, a section body free of markers, and (optionally) the next
marker line. -/
theorem gsc_found (lines : List Str) (m : Str) (allM : List Str)
    (pre : List Str) (mk : Str) (body post : List Str)
    (hl : lines = pre ++ mk :: (body ++ post))
    (hpre : ∀ l ∈ pre, startsWithMarker m l = false)
    (hmk : startsWithMarker m mk = true)
    (hbody : ∀ l ∈ body, anyMarker allM l = false)
    (hpost : post = [] ∨ ∃ q qs, post = q :: qs ∧ anyMarker allM q = true) :
    get_section_content lines m allM =
      some (inlineContent m mk ++ (body.map strip).filter (fun l => !l.isEmpty),
            pre.length) := by
  subst hl
  unfold get_section_content
  rw [splitAtMarker_found _ _ _ _ hpre hmk]
  have hbody2 : ∀ l ∈ body, (!anyMarker allM l) = true := by
    intro l hl2
    rw [hbody l hl2]
    rfl
  dsimp only
  rcases hpost with rfl | ⟨q, qs, rfl, hq⟩
  · rw [List.append_nil, takeWhile_eq_self_of_all _ _ hbody2]
  · rw [takeWhile_append_stop _ _ _ _ hbody2 (by rw [hq]; rfl)]

theorem inlineContent_eq (m mk : Str) :
    inlineContent m mk =
      (if (strip ((strip mk).drop m.length)).isEmpty then []
       else [strip ((strip mk).drop m.length)]) := by
  unfold inlineContent
  by_cases h : m.length < (strip mk).length
  · rw [if_pos h]
  · rw [if_neg h]
    have hd : (strip mk).drop m.length = [] := List.drop_eq_nil_of_le (by omega)
    rw [hd]
    rfl

/-- **C5.** Characterization of `get_section_content`: the result is `none`
exactly when no line's trimmed text starts with the marker; otherwise, for
the decomposition at the *first* marker line, the content span ends
immediately before the next later line whose trimmed text starts with any
known marker (or at the end of the block when there is none), the marker
line's trailing text beyond the marker token — trimmed — is the first content
line when non-empty, and every in-span line that is non-empty after trimming
is appended in order (blank lines are dropped and never terminate the
section); the returned index is the marker line's position. -/
theorem C5_gsc_characterization (lines : List Str) (m : Str) (allM : List Str) :
    (get_section_content lines m allM = none ↔
        ∀ l ∈ lines, startsWithMarker m l = false) ∧
      (∀ pre mk body post, lines = pre ++ mk :: (body ++ post) →
        (∀ l ∈ pre, startsWithMarker m l = false) →
        startsWithMarker m mk = true →
        (∀ l ∈ body, anyMarker allM l = false) →
        (post = [] ∨ ∃ q qs, post = q :: qs ∧ anyMarker allM q = true) →
        get_section_content lines m allM =
          some ((if (strip ((strip mk).drop m.length)).isEmpty then []
                 else [strip ((strip mk).drop m.length)]) ++
                  (body.map strip).filter (fun l => !l.isEmpty),
                pre.length)) := by
  constructor
  · constructor
    · intro hnone
      unfold get_section_content at hnone
      rcases hsp : splitAtMarker (startsWithMarker m) lines with _ | ⟨p1, p2, p3⟩
      · exact (splitAtMarker_eq_none _ _).mp hsp
      · rw [hsp] at hnone
        simp at hnone
    · intro hall
      unfold get_section_content
      rw [(splitAtMarker_eq_none _ _).mpr hall]
  · intro pre mk body post hl hpre hmk hbody hpost
    rw [gsc_found lines m allM pre mk body post hl hpre hmk hbody hpost,
      inlineContent_eq]

theorem C5_witness :
    get_section_content
        [lit ("junk"), lit ("AdvSL:: la"), [], lit ("x"), lit ("DIGLOT_MAP::")]
        mAdvSL ALL_POSSIBLE_MARKERS =
      some ([lit ("la"), lit ("x")], 1) := by
  have h := (C5_gsc_characterization
      [lit ("junk"), lit ("AdvSL:: la"), [], lit ("x"), lit ("DIGLOT_MAP::")]
      mAdvSL ALL_POSSIBLE_MARKERS).2
      [lit ("junk")] (lit ("AdvSL:: la")) [[], lit ("x")] [lit ("DIGLOT_MAP::")]
      (by decide) (by decide) (by decide) (by decide)
      (Or.inr ⟨lit ("DIGLOT_MAP::"), [], rfl, by decide⟩)
  rw [h]
  decide

theorem mem_ite_singleton {c : Prop} [Decidable c] {a b : Str}
    (h : a ∈ (if c then [b] else [])) : a = b := by
  by_cases hc : c
  · rw [if_pos hc] at h
    exact List.mem_singleton.mp h
  · rw [if_neg hc] at h
    exact absurd h (List.not_mem_nil _)

theorem smsg_inj {a b : Str} (h : smsg a = smsg b) : a = b := by
  unfold smsg at h
  exact List.append_cancel_left h

theorem p2Invalid_shape (i : Nat) (line : Str) : isP2LoopMsg (msgP2Invalid i line) :=
  Or.inl ⟨lit ("ine ") ++ natToStr (i + 1) ++ lit (" (") ++ sq ++ line.take 40 ++
      lit ("...") ++ sq ++ lit (") invalid format (expected S<n>(content))."),
    by
      unfold msgP2Invalid
      rw [show lit ("Line ") = 'L' :: lit ("ine ") from by decide]
      simp only [List.cons_append]⟩

theorem p2NoContent_shape (sid : Str) : isP2LoopMsg (msgP2NoContent sid) :=
  Or.inr (Or.inl ⟨lit ("egment ") ++ sid ++ lit (" has no content in parentheses."),
    by
      unfold msgP2NoContent
      rw [show lit ("Segment ") = 'S' :: lit ("egment ") from by decide]
      simp only [List.cons_append]⟩)

theorem p2Dup_shape (sid : Str) : isP2LoopMsg (msgP2Dup sid) :=
  Or.inr (Or.inr ⟨lit ("uplicate segment ID: ") ++ sid,
    by
      unfold msgP2Dup
      rw [show lit ("Duplicate segment ID: ") =
        'D' :: lit ("uplicate segment ID: ") from by decide]
      simp only [List.cons_append]⟩)

theorem seq_not_loopMsg (f e2 : List Str) (msg : Str) (h : isP2LoopMsg msg) :
    msg ≠ msgP2Seq f e2 := by
  intro heq
  have hr0 : msgP2Seq f e2 = smsg ('I' :: (lit ("Ds not sequential. Found: ") ++
      pyListRepr f ++ lit (", Expected: ") ++ pyListRepr e2)) := by
    unfold msgP2Seq
    rw [show lit ("IDs not sequential. Found: ") =
      'I' :: lit ("Ds not sequential. Found: ") from by decide]
    simp only [List.cons_append]
  rcases h with ⟨r, hr⟩ | ⟨r, hr⟩ | ⟨r, hr⟩ <;>
    · rw [hr, hr0] at heq
      have := smsg_inj heq
      simp at this

theorem phase2Go_cons_none (i : Nat) (st : P2State) (line : Str) (rest : List Str)
    (h : parseSegLine line = none) :
    phase2Go i st (line :: rest) =
      phase2Go (i + 1) { st with errs := st.errs ++ [msgP2Invalid i line] } rest := by
  conv_lhs => rw [phase2Go]
  rw [h]

theorem phase2Go_cons_some (i : Nat) (st : P2State) (line : Str) (rest : List Str)
    (sid scontent : Str) (h : parseSegLine line = some (sid, scontent)) :
    phase2Go i st (line :: rest) =
      phase2Go (i + 1)
        { errs := st.errs ++ (if scontent.isEmpty then [msgP2NoContent sid] else []) ++
            (if sid ∈ st.idset then [msgP2Dup sid] else []),
          ordered := st.ordered ++ [sid],
          idset := setInsert st.idset sid } rest := by
  conv_lhs => rw [phase2Go]
  rw [h]

theorem phase2Go_errs_mem (ls : List Str) : ∀ (i : Nat) (st : P2State),
    ∀ e ∈ (phase2Go i st ls).errs, e ∈ st.errs ∨ isP2LoopMsg e := by
  induction ls with
  | nil =>
      intro i st e he
      exact Or.inl he
  | cons a t ih =>
      intro i st e he
      cases hp : parseSegLine a with
      | none =>
          rw [phase2Go_cons_none i st a t hp] at he
          rcases ih (i + 1) _ e he with hin | hl
          · rcases List.mem_append.mp hin with h1 | h2
            · exact Or.inl h1
            · have h3 := List.mem_singleton.mp h2
              subst h3
              exact Or.inr (p2Invalid_shape i a)
          · exact Or.inr hl
      | some pr =>
          obtain ⟨sid, scontent⟩ := pr
          rw [phase2Go_cons_some i st a t sid scontent hp] at he
          rcases ih (i + 1) _ e he with hin | hl
          · rcases List.mem_append.mp hin with h1 | h2
            · rcases List.mem_append.mp h1 with h3 | h4
              · exact Or.inl h3
              · right
                have h5 := mem_ite_singleton h4
                subst h5
                exact p2NoContent_shape sid
            · right
              have h5 := mem_ite_singleton h2
              subst h5
              exact p2Dup_shape sid
          · exact Or.inr hl

/-- **C4.** After Phase 2 processes the `SimS_Segments::` content lines, the
ordered list of discovered segment IDs (duplicates included) is compared with
`["S1",...,"Sk"]` for `k` its own length; the "IDs not sequential" error
showing the found and expected lists occurs exactly once when they differ and
never otherwise — and concretely, IDs `S1, S3` report found
`['S1', 'S3']` versus expected `['S1', 'S2']`. -/
theorem C4_ids_sequential (content : List Str) :
    ((phase2Content content).1.count
        (msgP2Seq (phase2Content content).2.1
          ((List.range (phase2Content content).2.1.length).map
            (fun j => 'S' :: natToStr (j + 1)))) =
      if (phase2Content content).2.1 =
          (List.range (phase2Content content).2.1.length).map
            (fun j => 'S' :: natToStr (j + 1))
       then 0 else 1) ∧
      (phase2Content [lit ("S1(x)"), lit ("S3(y)")]).1 =
        [msgP2Seq [lit ("S1"), lit ("S3")] [lit ("S1"), lit ("S2")]] := by
  constructor
  · unfold phase2Content
    dsimp only
    have hzero : ∀ f e : List Str,
        (phase2Go 0 ⟨[], [], []⟩ content).errs.count (msgP2Seq f e) = 0 := by
      intro f e
      rw [List.count_eq_zero]
      intro hmem
      rcases phase2Go_errs_mem content 0 ⟨[], [], []⟩ _ hmem with h0 | hl
      · exact absurd h0 (List.not_mem_nil _)
      · exact seq_not_loopMsg _ _ _ hl rfl
    by_cases he : (phase2Go 0 ⟨[], [], []⟩ content).ordered =
        (List.range (phase2Go 0 ⟨[], [], []⟩ content).ordered.length).map
          (fun j => 'S' :: natToStr (j + 1))
    · rw [if_pos he, if_pos he, List.append_nil]
      exact hzero _ _
    · rw [if_neg he, if_neg he, List.count_append, hzero]
      simp
  · decide

theorem entrymsg_inj {sid part a b : Str}
    (h : entrymsg sid part a = entrymsg sid part b) : a = b := by
  unfold entrymsg dsidmsg dmsg at h
  exact List.append_cancel_left (List.append_cancel_left (List.append_cancel_left h))

theorem msgBadFlag_ne_emptyEng (sid p : Str) (c : Char) :
    msgP6BadFlag sid p c ≠ msgP6EmptyEng sid p := by
  intro h
  unfold msgP6BadFlag msgP6EmptyEng at h
  have h2 := entrymsg_inj h
  simp only [List.append_assoc] at h2
  have h3 := congrArg (List.take 5) h2
  rw [List.take_append_of_le_length (by decide)] at h3
  exact absurd h3 (by decide)

theorem msgBadFlag_ne_emptySpa (sid p : Str) (c : Char) :
    msgP6BadFlag sid p c ≠ msgP6EmptySpa sid p := by
  intro h
  unfold msgP6BadFlag msgP6EmptySpa at h
  have h2 := entrymsg_inj h
  simp only [List.append_assoc] at h2
  have h3 := congrArg (List.take 5) h2
  rw [List.take_append_of_le_length (by decide)] at h3
  exact absurd h3 (by decide)

theorem msgBadFlag_ne_emptyForm (sid p : Str) (c : Char) :
    msgP6BadFlag sid p c ≠ msgP6EmptyForm sid p := by
  intro h
  unfold msgP6BadFlag msgP6EmptyForm at h
  have h2 := entrymsg_inj h
  simp only [List.append_assoc] at h2
  have h3 := congrArg (List.take 5) h2
  rw [List.take_append_of_le_length (by decide)] at h3
  exact absurd h3 (by decide)

/-- **C8.** For a `DIGLOT_MAP::` entry candidate that matches the entry
regex, the invalid-ViabilityFlag error citing the captured character is
reported if and only if that character is not exactly `Y` or `N`
(case-sensitive). -/
theorem C8_viability_flag (sid entries part eng spa form : Str) (idx : Nat)
    (flag : Char) (hne : (strip part).isEmpty = false)
    (hp : parseDiglotEntry (strip part) = some (eng, spa, form, flag)) :
    (msgP6BadFlag sid (strip part) flag ∈ diglotPartErrs sid entries idx part ↔
      (flag ≠ 'Y' ∧ flag ≠ 'N')) := by
  simp only [diglotPartErrs, hne, hp, Bool.false_eq_true, if_false]
  constructor
  · intro hmem
    by_cases hflag : flag = 'Y' ∨ flag = 'N'
    · exfalso
      rw [if_pos hflag, List.append_nil] at hmem
      rcases List.mem_append.mp hmem with h1 | h3
      · rcases List.mem_append.mp h1 with h1a | h2
        · exact msgBadFlag_ne_emptyEng sid (strip part) flag (mem_ite_singleton h1a)
        · exact msgBadFlag_ne_emptySpa sid (strip part) flag (mem_ite_singleton h2)
      · exact msgBadFlag_ne_emptyForm sid (strip part) flag (mem_ite_singleton h3)
    · push_neg at hflag
      exact hflag
  · intro hf
    have hcond : ¬(flag = 'Y' ∨ flag = 'N') := by
      intro hor
      rcases hor with h | h
      · exact hf.1 h
      · exact hf.2 h
    rw [if_neg hcond]
    exact List.mem_append_right _ (List.mem_singleton.mpr rfl)

theorem C8_witness :
    msgP6BadFlag (lit ("S1")) (strip (lit ("E->S(F)(x)"))) 'x' ∈
      diglotPartErrs (lit ("S1")) (lit ("E->S(F)(x)")) 0 (lit ("E->S(F)(x)")) :=
  (C8_viability_flag (lit ("S1")) (lit ("E->S(F)(x)")) (lit ("E->S(F)(x)"))
      (lit ("E")) (lit ("S")) (lit ("F")) 0 'x' (by decide) (by decide)).mpr
    (by decide)

theorem phase2Go_ordered_idset (ls : List Str) : ∀ (i : Nat) (st : P2State),
    (phase2Go i st ls).ordered =
        st.ordered ++ (ls.filterMap parseSegLine).map Prod.fst ∧
      (phase2Go i st ls).idset =
        (ls.filterMap parseSegLine).foldl (fun s pr => setInsert s pr.1) st.idset := by
  induction ls with
  | nil =>
      intro i st
      simp [phase2Go]
  | cons a t ih =>
      intro i st
      cases hp : parseSegLine a with
      | none =>
          rw [phase2Go_cons_none i st a t hp, List.filterMap_cons_none hp]
          exact ih (i + 1) _
      | some pr =>
          obtain ⟨sid, scontent⟩ := pr
          rw [phase2Go_cons_some i st a t sid scontent hp,
            List.filterMap_cons_some hp]
          obtain ⟨ho, hs⟩ := ih (i + 1)
            { errs := st.errs ++ (if scontent.isEmpty then [msgP2NoContent sid] else []) ++
                (if sid ∈ st.idset then [msgP2Dup sid] else []),
              ordered := st.ordered ++ [sid],
              idset := setInsert st.idset sid }
          constructor
          · rw [ho]
            simp
          · rw [hs]
            simp

/-- **C10.** A `SimS_Segments::` content line that fails the `S<n>(content)`
pattern contributes only its invalid-format error and nothing to the
discovered-ID list or set; hence for content lines `S1(a)`, one malformed
line, `S2(b)` the phase reports the invalid-format error but no
IDs-not-sequential error — the sequentiality comparison ranges over
well-formed lines only. -/
theorem C10_malformed_segment_lines (bad : Str) (hbad : parseSegLine bad = none) :
    ((phase2Content [lit ("S1(a)"), bad, lit ("S2(b)")]).2.1 =
        [lit ("S1"), lit ("S2")] ∧
      (phase2Content [lit ("S1(a)"), bad, lit ("S2(b)")]).1 =
        [msgP2Invalid 1 bad] ∧
      (∀ f e, msgP2Seq f e ∉ (phase2Content [lit ("S1(a)"), bad, lit ("S2(b)")]).1)) ∧
      (∀ (ls : List Str) (i : Nat) (st : P2State),
        (phase2Go i st ls).ordered =
          st.ordered ++ (ls.filterMap parseSegLine).map Prod.fst) := by
  have hrun : phase2Go 0 ⟨[], [], []⟩ [lit ("S1(a)"), bad, lit ("S2(b)")] =
      ⟨[msgP2Invalid 1 bad], [lit ("S1"), lit ("S2")],
        [lit ("S1"), lit ("S2")]⟩ := by
    rw [show (phase2Go 0 ⟨[], [], []⟩ [lit ("S1(a)"), bad, lit ("S2(b)")] : P2State) =
        phase2Go 1 ⟨[], [lit ("S1")], [lit ("S1")]⟩ [bad, lit ("S2(b)")] from rfl]
    rw [phase2Go_cons_none 1 _ _ _ hbad]
    rfl
  have hcontent : phase2Content [lit ("S1(a)"), bad, lit ("S2(b)")] =
      ([msgP2Invalid 1 bad], [lit ("S1"), lit ("S2")], [lit ("S1"), lit ("S2")]) := by
    unfold phase2Content
    rw [hrun]
    dsimp only
    rw [if_pos (by decide :
      ([lit ("S1"), lit ("S2")] : List Str) =
        (List.range ([lit ("S1"), lit ("S2")] : List Str).length).map
          (fun j => 'S' :: natToStr (j + 1)))]
    rw [List.append_nil]
  refine ⟨⟨?_, ?_, ?_⟩, fun ls i st => (phase2Go_ordered_idset ls i st).1⟩
  · rw [hcontent]
  · rw [hcontent]
  · intro f e hmem
    rw [hcontent] at hmem
    have h1 := List.mem_singleton.mp hmem
    exact seq_not_loopMsg f e _ (p2Invalid_shape 1 bad) h1.symm

theorem C10_witness :
    (phase2Content [lit ("S1(a)"), lit ("oops"), lit ("S2(b)")]).1 =
      [msgP2Invalid 1 (lit ("oops"))] :=
  ((C10_malformed_segment_lines (lit ("oops")) (by decide)).1).2.1

theorem natToStrGo_spec : ∀ (fuel n : Nat) (acc : Str), n < fuel →
    natToStrGo fuel n acc = natDigits n ++ acc := by
  intro fuel
  induction fuel with
  | zero =>
      intro n acc h
      exact absurd h (Nat.not_lt_zero n)
  | succ f ih =>
      intro n acc h
      rw [show natToStrGo (f + 1) n acc =
          (if n < 10 then Nat.digitChar (n % 10) :: acc
           else natToStrGo f (n / 10) (Nat.digitChar (n % 10) :: acc)) from rfl]
      by_cases h10 : n < 10
      · rw [if_pos h10, natDigits, if_pos h10, Nat.mod_eq_of_lt h10]
        rfl
      · have hdiv : n / 10 < n := Nat.div_lt_self (by omega) (by omega)
        rw [if_neg h10, ih (n / 10) _ (by omega)]
        conv_rhs => rw [natDigits]
        rw [if_neg h10]
        simp

theorem natToStr_eq_natDigits (n : Nat) : natToStr n = natDigits n := by
  unfold natToStr
  rw [natToStrGo_spec _ _ _ (Nat.lt_succ_self n)]
  simp

theorem natDigits_ne_nil (n : Nat) : natDigits n ≠ [] := by
  rw [natDigits]
  by_cases h : n < 10
  · rw [if_pos h]
    simp
  · rw [if_neg h]
    simp

theorem digitChar_isDigit (m : Nat) (h : m < 10) : (Nat.digitChar m).isDigit = true := by
  have hm : m = 0 ∨ m = 1 ∨ m = 2 ∨ m = 3 ∨ m = 4 ∨ m = 5 ∨ m = 6 ∨ m = 7 ∨
      m = 8 ∨ m = 9 := by omega
  rcases hm with h1|h1|h1|h1|h1|h1|h1|h1|h1|h1 <;> (subst h1; decide)

theorem natDigits_digits (n : Nat) : ∀ c ∈ natDigits n, c.isDigit = true := by
  induction n using Nat.strong_induction_on with
  | _ n ih =>
      rw [natDigits]
      by_cases h : n < 10
      · rw [if_pos h]
        intro c hc
        rw [List.mem_singleton] at hc
        subst hc
        exact digitChar_isDigit n h
      · rw [if_neg h]
        intro c hc
        rcases List.mem_append.mp hc with h1 | h2
        · exact ih (n / 10) (Nat.div_lt_self (by omega) (by omega)) c h1
        · rw [List.mem_singleton] at h2
          subst h2
          exact digitChar_isDigit (n % 10) (Nat.mod_lt _ (by omega))

theorem natToStr_digits (n : Nat) : ∀ c ∈ natToStr n, c.isDigit = true := by
  rw [natToStr_eq_natDigits]
  exact natDigits_digits n

theorem natToStr_ne_nil (n : Nat) : natToStr n ≠ [] := by
  rw [natToStr_eq_natDigits]
  exact natDigits_ne_nil n

theorem natToStr_head (n : Nat) :
    ∃ d t, natToStr n = d :: t ∧ d.isDigit = true := by
  cases hn : natToStr n with
  | nil => exact absurd hn (natToStr_ne_nil n)
  | cons d t =>
      exact ⟨d, t, rfl, natToStr_digits n d (by rw [hn]; simp)⟩

theorem digitVal_digitChar (m : Nat) (h : m < 10) :
    digitVal (Nat.digitChar m) = m := by
  have hm : m = 0 ∨ m = 1 ∨ m = 2 ∨ m = 3 ∨ m = 4 ∨ m = 5 ∨ m = 6 ∨ m = 7 ∨
      m = 8 ∨ m = 9 := by omega
  rcases hm with h1|h1|h1|h1|h1|h1|h1|h1|h1|h1 <;> (subst h1; decide)

theorem strToNatGo_append (xs : Str) : ∀ (ys : Str) (a : Nat),
    strToNatGo a (xs ++ ys) = strToNatGo (strToNatGo a xs) ys := by
  induction xs with
  | nil =>
      intro ys a
      rfl
  | cons c t ih =>
      intro ys a
      rw [List.cons_append]
      rw [show strToNatGo a (c :: (t ++ ys)) =
        strToNatGo (a * 10 + digitVal c) (t ++ ys) from rfl]
      rw [ih]
      rfl

theorem natDigits_strToNat (n : Nat) : strToNat (natDigits n) = n := by
  induction n using Nat.strong_induction_on with
  | _ n ih =>
      rw [natDigits]
      by_cases h : n < 10
      · rw [if_pos h]
        unfold strToNat
        rw [show strToNatGo 0 [Nat.digitChar n] =
          strToNatGo (0 * 10 + digitVal (Nat.digitChar n)) [] from rfl]
        rw [show strToNatGo (0 * 10 + digitVal (Nat.digitChar n)) [] =
          0 * 10 + digitVal (Nat.digitChar n) from rfl]
        rw [digitVal_digitChar n h]
        omega
      · rw [if_neg h]
        unfold strToNat
        rw [strToNatGo_append]
        have hpre : strToNatGo 0 (natDigits (n / 10)) = n / 10 :=
          ih (n / 10) (Nat.div_lt_self (by omega) (by omega))
        rw [hpre]
        rw [show strToNatGo (n / 10) [Nat.digitChar (n % 10)] =
          strToNatGo (n / 10 * 10 + digitVal (Nat.digitChar (n % 10))) [] from rfl]
        rw [show ∀ a, strToNatGo a [] = a from fun a => rfl]
        rw [digitVal_digitChar (n % 10) (Nat.mod_lt _ (by omega))]
        omega

theorem natToStr_inj {a b : Nat} (h : natToStr a = natToStr b) : a = b := by
  rw [natToStr_eq_natDigits, natToStr_eq_natDigits] at h
  have h2 := congrArg strToNat h
  rwa [natDigits_strToNat, natDigits_strToNat] at h2

theorem segIdStr_inj {a b : Nat} (h : segIdStr a = segIdStr b) : a = b := by
  unfold segIdStr at h
  exact natToStr_inj (List.cons.inj h).2

theorem ws_not_digit (c : Char) (h : c.isDigit = true) : isWsChar c = false := by
  by_contra hw
  rw [Bool.not_eq_false] at hw
  unfold isWsChar at hw
  simp only [Bool.or_eq_true, decide_eq_true_eq] at hw
  rcases hw with ((((h1|h1)|h1)|h1)|h1)|h1 <;> (subst h1; exact absurd h (by decide))

theorem lb_not_digit (c : Char) (h : c.isDigit = true) : isLineBreakChar c = false := by
  by_contra hw
  rw [Bool.not_eq_false] at hw
  unfold isLineBreakChar at hw
  simp only [Bool.or_eq_true, decide_eq_true_eq] at hw
  rcases hw with (((((h1|h1)|h1)|h1)|h1)|h1)|h1 <;> (subst h1; exact absurd h (by decide))

theorem lstrip_cons_not_ws (c : Char) (l : Str) (hc : isWsChar c = false) :
    lstrip (c :: l) = c :: l := by
  simp [lstrip, List.dropWhile_cons, hc]

theorem lstrip_cons_ws (c : Char) (l : Str) (hc : isWsChar c = true) :
    lstrip (c :: l) = lstrip l := by
  simp [lstrip, List.dropWhile_cons, hc]

theorem lstrip_ws_append (pre : Str) (r : Str) (h : ∀ x ∈ pre, isWsChar x = true) :
    lstrip (pre ++ r) = lstrip r := by
  induction pre with
  | nil => rfl
  | cons c t ih =>
      rw [List.cons_append, lstrip_cons_ws c _ (h c (by simp))]
      exact ih (fun x hx => h x (by simp [hx]))

theorem rstrip_of_rev_cons (l : Str) (c : Char) (t : Str) (hr : l.reverse = c :: t)
    (hc : isWsChar c = false) : rstrip l = l := by
  unfold rstrip
  rw [hr, List.dropWhile_cons, hc]
  simp only [Bool.false_eq_true, if_false]
  rw [← hr, List.reverse_reverse]

theorem rstrip_append_ws (x : Str) (c : Char) (hc : isWsChar c = true) :
    rstrip (x ++ [c]) = rstrip x := by
  unfold rstrip
  rw [List.reverse_append, show ([c] : Str).reverse = [c] from rfl,
    List.singleton_append, List.dropWhile_cons, hc]
  simp

theorem rev_append_singleton (x : Str) (c : Char) :
    (x ++ [c]).reverse = c :: x.reverse := by
  simp

theorem strip_id_of_ends (s : Str) (c : Char) (t : Str) (h1 : s = c :: t)
    (hc : isWsChar c = false) (c2 : Char) (t2 : Str) (h2 : s.reverse = c2 :: t2)
    (hc2 : isWsChar c2 = false) : strip s = s := by
  subst h1
  unfold strip
  rw [lstrip_cons_not_ws _ _ hc]
  exact rstrip_of_rev_cons _ c2 t2 h2 hc2

theorem strippedNE_spec (s : Str) (h : strippedNE s = true) :
    s ≠ [] ∧ strip s = s ∧ noLB s = true ∧
      (∃ c t, s = c :: t ∧ isWsChar c = false) ∧
      (∃ c t, s.reverse = c :: t ∧ isWsChar c = false) := by
  unfold strippedNE at h
  simp only [Bool.and_eq_true, Bool.not_eq_true'] at h
  obtain ⟨⟨⟨hne, hh⟩, hr⟩, hlb⟩ := h
  have hsne : s ≠ [] := by
    intro h0
    subst h0
    simp at hne
  obtain ⟨c, t, rfl⟩ : ∃ c t, s = c :: t := by
    cases s with
    | nil => exact absurd rfl hsne
    | cons c t => exact ⟨c, t, rfl⟩
  have hch : isWsChar c = false := by simpa using hh
  obtain ⟨c2, t2, hrev⟩ : ∃ c2 t2, (c :: t).reverse = c2 :: t2 := by
    cases hrv : (c :: t).reverse with
    | nil =>
        have := congrArg List.length hrv
        simp at this
    | cons c2 t2 => exact ⟨c2, t2, rfl⟩
  have hc2 : isWsChar c2 = false := by
    rw [hrev] at hr
    simpa using hr
  refine ⟨hsne, strip_id_of_ends _ c t rfl hch c2 t2 hrev hc2, hlb,
    ⟨c, t, rfl, hch⟩, ⟨c2, t2, hrev, hc2⟩⟩

/-- `strip` is the identity on `c₀ :: mid ++ f` when `c₀` is not whitespace
and `f` is a stripped non-empty field. -/
theorem strip_id_field_end (c0 : Char) (mid : Str) (f : Str)
    (hc0 : isWsChar c0 = false) (hf : strippedNE f = true) :
    strip ((c0 :: mid) ++ f) = (c0 :: mid) ++ f := by
  obtain ⟨_, _, _, _, ⟨c2, t2, h2, hc2⟩⟩ := strippedNE_spec f hf
  refine strip_id_of_ends _ c0 (mid ++ f) (by simp) hc0 c2 (t2 ++ (c0 :: mid).reverse) ?_ hc2
  rw [List.reverse_append, h2, List.cons_append]

/-- `strip` is the identity on `c₀ :: mid ++ [c₁]` for non-whitespace ends. -/
theorem strip_id_fixed_end (c0 : Char) (mid : Str) (c1 : Char)
    (hc0 : isWsChar c0 = false) (hc1 : isWsChar c1 = false) :
    strip ((c0 :: mid) ++ [c1]) = (c0 :: mid) ++ [c1] :=
  strip_id_of_ends _ c0 (mid ++ [c1]) (by simp) hc0 c1 (c0 :: mid).reverse
    (rev_append_singleton _ _) hc1

theorem strip_id_rev_end (c0 : Char) (mid f : Str) (hc0 : isWsChar c0 = false)
    (c2 : Char) (t2 : Str) (h2 : f.reverse = c2 :: t2) (hc2 : isWsChar c2 = false) :
    strip ((c0 :: mid) ++ f) = (c0 :: mid) ++ f := by
  refine strip_id_of_ends _ c0 (mid ++ f) (by simp) hc0 c2
    (t2 ++ (c0 :: mid).reverse) ?_ hc2
  rw [List.reverse_append, h2, List.cons_append]

theorem strip_id_header (m : Str) (f : Str) (c0 : Char) (tm : Str)
    (hm : m ++ [' '] = c0 :: tm) (hc0 : isWsChar c0 = false)
    (hf : strippedNE f = true) :
    strip ((m ++ [' ']) ++ f) = (m ++ [' ']) ++ f := by
  rw [hm]
  exact strip_id_field_end c0 tm f hc0 hf

theorem strip_id_segLine (i : Nat) (s : SegSpec) :
    strip (segLine i s) = segLine i s := by
  unfold segLine segIdStr
  rw [show ((('S' :: natToStr (i + 1)) ++ ['(']) ++ s.content) ++ [')'] =
    ('S' :: ((natToStr (i + 1) ++ ['(']) ++ s.content)) ++ [')'] from by simp]
  exact strip_id_fixed_end 'S' _ ')' (by decide) (by decide)

theorem strip_id_alignLine (i : Nat) (s : SegSpec)
    (h2 : strippedNE s.span2 = true) :
    strip (alignLine i s) = alignLine i s := by
  unfold alignLine segIdStr
  rw [show (((('S' :: natToStr (i + 1)) ++ lit (" ~ ")) ++ s.span1) ++ lit (" ~ ")) ++
      s.span2 =
    ('S' :: (((natToStr (i + 1) ++ lit (" ~ ")) ++ s.span1) ++ lit (" ~ "))) ++
      s.span2 from by simp]
  exact strip_id_field_end 'S' _ _ (by decide) h2

theorem strip_id_simslLine (i : Nat) (s : SegSpec)
    (h2 : strippedNE s.lemtext = true) :
    strip (simslLine i s) = simslLine i s := by
  unfold simslLine segIdStr
  rw [show (('S' :: natToStr (i + 1)) ++ lit (" :: ")) ++ s.lemtext =
    ('S' :: (natToStr (i + 1) ++ lit (" :: "))) ++ s.lemtext from by simp]
  exact strip_id_field_end 'S' _ _ (by decide) h2

theorem renderEntry_rev (e : DEntry) :
    ∃ t, (renderEntry e).reverse = ')' :: t := by
  unfold renderEntry
  exact ⟨_, rev_append_singleton _ ')'⟩

theorem renderEntries_rev (es : List DEntry) (hne : es ≠ []) :
    ∃ t, (renderEntries es).reverse = ')' :: t := by
  induction es with
  | nil => exact absurd rfl hne
  | cons e rest ih =>
      cases rest with
      | nil =>
          unfold renderEntries
          rw [List.map_cons, List.map_nil]
          exact renderEntry_rev e
      | cons e2 rest2 =>
          obtain ⟨t, ht⟩ := ih (by simp)
          unfold renderEntries at ht ⊢
          rw [List.map_cons]
          rw [show joinSep (lit (" | ")) (renderEntry e :: List.map renderEntry (e2 :: rest2)) =
            ((renderEntry e ++ lit (" | ")) ++
              joinSep (lit (" | ")) (List.map renderEntry (e2 :: rest2))) from by
            rw [List.map_cons, joinSep]]
          rw [List.reverse_append, ht, List.cons_append]
          exact ⟨_, rfl⟩

theorem strip_id_diglotLine (i : Nat) (s : SegSpec) :
    strip (diglotLine i s) = diglotLine i s := by
  unfold diglotLine segIdStr
  by_cases he : s.entries.isEmpty = true
  · rw [if_pos he, List.append_nil]
    rw [show ('S' :: natToStr (i + 1)) ++ lit (" ::") =
      ('S' :: (natToStr (i + 1) ++ [' ', ':'])) ++ [':'] from by simp [lit]]
    exact strip_id_fixed_end 'S' _ ':' (by decide) (by decide)
  · have hne : s.entries ≠ [] := by
      intro h0
      rw [h0] at he
      exact he rfl
    obtain ⟨t2, ht2⟩ := renderEntries_rev s.entries hne
    rw [if_neg he]
    rw [show (('S' :: natToStr (i + 1)) ++ lit (" ::")) ++
        (' ' :: renderEntries s.entries) =
      ('S' :: ((natToStr (i + 1) ++ lit (" ::")) ++ [' '])) ++
        renderEntries s.entries from by simp]
    exact strip_id_rev_end 'S' _ _ (by decide) ')' t2 ht2 (by decide)

theorem isPfxOf_cons_cons (a b : Char) (as bs : Str) :
    List.isPrefixOf (a :: as) (b :: bs) = (a == b && List.isPrefixOf as bs) := rfl

theorem noMarker_SDigit (d : Char) (hd : d.isDigit = true) (t : Str) :
    ∀ m ∈ ALL_POSSIBLE_MARKERS, List.isPrefixOf m ('S' :: d :: t) = false := by
  have hdi : ('i' == d) = false := by
    rw [beq_eq_false_iff_ne]
    intro h
    rw [← h] at hd
    exact absurd hd (by decide)
  intro m hm
  simp only [ALL_POSSIBLE_MARKERS, REQUIRED_SECTION_MARKERS, OPTIONAL_SECTION_MARKERS,
    List.mem_append, List.mem_cons, List.mem_singleton, List.not_mem_nil,
    or_false] at hm
  rcases hm with (h|h|h|h|h|h|h|h)|h <;> subst h
  · rfl
  · simp [mSimS, isPfxOf_cons_cons, hdi]
  · simp [mSimE, isPfxOf_cons_cons, hdi]
  · simp [mSimS_Segments, isPfxOf_cons_cons, hdi]
  · rfl
  · simp [mSimSL, isPfxOf_cons_cons, hdi]
  · rfl
  · rfl
  · rfl

theorem segLine_no_marker (i : Nat) (s : SegSpec) :
    ∀ m ∈ ALL_POSSIBLE_MARKERS, startsWithMarker m (segLine i s) = false := by
  intro m hm
  unfold startsWithMarker
  rw [strip_id_segLine i s]
  obtain ⟨d, ds, hds, hd⟩ := natToStr_head (i + 1)
  rw [show segLine i s = 'S' :: d :: (((ds ++ ['(']) ++ s.content) ++ [')']) from by
    unfold segLine segIdStr
    rw [hds]
    simp]
  exact noMarker_SDigit d hd _ m hm

theorem alignLine_no_marker (i : Nat) (s : SegSpec)
    (h2 : strippedNE s.span2 = true) :
    ∀ m ∈ ALL_POSSIBLE_MARKERS, startsWithMarker m (alignLine i s) = false := by
  intro m hm
  unfold startsWithMarker
  rw [strip_id_alignLine i s h2]
  obtain ⟨d, ds, hds, hd⟩ := natToStr_head (i + 1)
  rw [show alignLine i s =
      'S' :: d :: ((((ds ++ lit (" ~ ")) ++ s.span1) ++ lit (" ~ ")) ++ s.span2) from by
    unfold alignLine segIdStr
    rw [hds]
    simp]
  exact noMarker_SDigit d hd _ m hm

theorem simslLine_no_marker (i : Nat) (s : SegSpec)
    (h2 : strippedNE s.lemtext = true) :
    ∀ m ∈ ALL_POSSIBLE_MARKERS, startsWithMarker m (simslLine i s) = false := by
  intro m hm
  unfold startsWithMarker
  rw [strip_id_simslLine i s h2]
  obtain ⟨d, ds, hds, hd⟩ := natToStr_head (i + 1)
  rw [show simslLine i s = 'S' :: d :: ((ds ++ lit (" :: ")) ++ s.lemtext) from by
    unfold simslLine segIdStr
    rw [hds]
    simp]
  exact noMarker_SDigit d hd _ m hm

theorem diglotLine_no_marker (i : Nat) (s : SegSpec) :
    ∀ m ∈ ALL_POSSIBLE_MARKERS, startsWithMarker m (diglotLine i s) = false := by
  intro m hm
  unfold startsWithMarker
  rw [strip_id_diglotLine i s]
  obtain ⟨d, ds, hds, hd⟩ := natToStr_head (i + 1)
  rw [show diglotLine i s =
      'S' :: d :: ((ds ++ lit (" ::")) ++
        (if s.entries.isEmpty then [] else ' ' :: renderEntries s.entries)) from by
    unfold diglotLine segIdStr
    rw [hds]
    simp]
  exact noMarker_SDigit d hd _ m hm

theorem advsHeader_markers (f : Str) (hf : strippedNE f = true) :
    startsWithMarker mAdvS ((mAdvS ++ [' ']) ++ f) = true ∧
      ∀ m ∈ ALL_POSSIBLE_MARKERS, m ≠ mAdvS →
        startsWithMarker m ((mAdvS ++ [' ']) ++ f) = false := by
  have hs := strip_id_header mAdvS f 'A' _ rfl (by decide) hf
  refine ⟨by unfold startsWithMarker; rw [hs]; rfl, ?_⟩
  intro m hm hne
  unfold startsWithMarker
  rw [hs]
  simp only [ALL_POSSIBLE_MARKERS, REQUIRED_SECTION_MARKERS, OPTIONAL_SECTION_MARKERS,
    List.mem_append, List.mem_cons, List.mem_singleton, List.not_mem_nil,
    or_false] at hm
  rcases hm with (h|h|h|h|h|h|h|h)|h <;> subst h
  · exact absurd rfl hne
  · rfl
  · rfl
  · rfl
  · rfl
  · rfl
  · rfl
  · rfl
  · rfl

theorem simsHeader_markers (f : Str) (hf : strippedNE f = true) :
    startsWithMarker mSimS ((mSimS ++ [' ']) ++ f) = true ∧
      ∀ m ∈ ALL_POSSIBLE_MARKERS, m ≠ mSimS →
        startsWithMarker m ((mSimS ++ [' ']) ++ f) = false := by
  have hs := strip_id_header mSimS f 'S' _ rfl (by decide) hf
  refine ⟨by unfold startsWithMarker; rw [hs]; rfl, ?_⟩
  intro m hm hne
  unfold startsWithMarker
  rw [hs]
  simp only [ALL_POSSIBLE_MARKERS, REQUIRED_SECTION_MARKERS, OPTIONAL_SECTION_MARKERS,
    List.mem_append, List.mem_cons, List.mem_singleton, List.not_mem_nil,
    or_false] at hm
  rcases hm with (h|h|h|h|h|h|h|h)|h <;> subst h
  · rfl
  · exact absurd rfl hne
  · rfl
  · rfl
  · rfl
  · rfl
  · rfl
  · rfl
  · rfl

theorem simeHeader_markers (f : Str) (hf : strippedNE f = true) :
    startsWithMarker mSimE ((mSimE ++ [' ']) ++ f) = true ∧
      ∀ m ∈ ALL_POSSIBLE_MARKERS, m ≠ mSimE →
        startsWithMarker m ((mSimE ++ [' ']) ++ f) = false := by
  have hs := strip_id_header mSimE f 'S' _ rfl (by decide) hf
  refine ⟨by unfold startsWithMarker; rw [hs]; rfl, ?_⟩
  intro m hm hne
  unfold startsWithMarker
  rw [hs]
  simp only [ALL_POSSIBLE_MARKERS, REQUIRED_SECTION_MARKERS, OPTIONAL_SECTION_MARKERS,
    List.mem_append, List.mem_cons, List.mem_singleton, List.not_mem_nil,
    or_false] at hm
  rcases hm with (h|h|h|h|h|h|h|h)|h <;> subst h
  · rfl
  · rfl
  · exact absurd rfl hne
  · rfl
  · rfl
  · rfl
  · rfl
  · rfl
  · rfl

theorem advslHeader_markers (f : Str) (hf : strippedNE f = true) :
    startsWithMarker mAdvSL ((mAdvSL ++ [' ']) ++ f) = true ∧
      ∀ m ∈ ALL_POSSIBLE_MARKERS, m ≠ mAdvSL →
        startsWithMarker m ((mAdvSL ++ [' ']) ++ f) = false := by
  have hs := strip_id_header mAdvSL f 'A' _ rfl (by decide) hf
  refine ⟨by unfold startsWithMarker; rw [hs]; rfl, ?_⟩
  intro m hm hne
  unfold startsWithMarker
  rw [hs]
  simp only [ALL_POSSIBLE_MARKERS, REQUIRED_SECTION_MARKERS, OPTIONAL_SECTION_MARKERS,
    List.mem_append, List.mem_cons, List.mem_singleton, List.not_mem_nil,
    or_false] at hm
  rcases hm with (h|h|h|h|h|h|h|h)|h <;> subst h
  · rfl
  · rfl
  · rfl
  · rfl
  · rfl
  · rfl
  · exact absurd rfl hne
  · rfl
  · rfl

theorem pureSegM_markers :
    ∀ m ∈ ALL_POSSIBLE_MARKERS,
      startsWithMarker m mSimS_Segments = (m == mSimS_Segments) := by decide

theorem purePAM_markers :
    ∀ m ∈ ALL_POSSIBLE_MARKERS,
      startsWithMarker m mPHRASE_ALIGN = (m == mPHRASE_ALIGN) := by decide

theorem pureSLM_markers :
    ∀ m ∈ ALL_POSSIBLE_MARKERS,
      startsWithMarker m mSimSL = (m == mSimSL) := by decide

theorem pureDMM_markers :
    ∀ m ∈ ALL_POSSIBLE_MARKERS,
      startsWithMarker m mDIGLOT_MAP = (m == mDIGLOT_MAP) := by decide

theorem markerHitsGo_append (p : Str → Bool) (xs ys : List Str) : ∀ i : Nat,
    markerHitsGo p i (xs ++ ys) =
      markerHitsGo p i xs ++ markerHitsGo p (i + xs.length) ys := by
  induction xs with
  | nil =>
      intro i
      simp [markerHitsGo]
  | cons a t ih =>
      intro i
      rw [List.cons_append]
      rw [show markerHitsGo p i (a :: (t ++ ys)) =
        (if p a then [i] else []) ++ markerHitsGo p (i + 1) (t ++ ys) from rfl]
      rw [ih (i + 1)]
      rw [show markerHitsGo p i (a :: t) =
        (if p a then [i] else []) ++ markerHitsGo p (i + 1) t from rfl]
      rw [show i + 1 + t.length = i + (a :: t).length from by simp [List.length_cons]; omega]
      simp [List.append_assoc]

theorem markerHitsGo_nil_of_all (p : Str → Bool) (xs : List Str)
    (h : ∀ l ∈ xs, p l = false) (i : Nat) : markerHitsGo p i xs = [] :=
  (markerHitsGo_eq_nil p i xs).mpr h

theorem markerHits_single_decomp (p : Str → Bool) (pre : List Str) (l : Str)
    (post : List Str) (hpre : ∀ x ∈ pre, p x = false) (hl : p l = true)
    (hpost : ∀ x ∈ post, p x = false) :
    markerHitsGo p 0 (pre ++ l :: post) = [pre.length] := by
  rw [markerHitsGo_append]
  rw [markerHitsGo_nil_of_all p pre hpre 0]
  rw [show markerHitsGo p (0 + pre.length) (l :: post) =
    (if p l then [0 + pre.length] else []) ++
      markerHitsGo p (0 + pre.length + 1) post from rfl]
  rw [if_pos hl]
  rw [markerHitsGo_nil_of_all p post hpost _]
  simp

theorem mapIdxGo_length (f : Nat → SegSpec → Str) (segs : List SegSpec) :
    ∀ i : Nat, (mapIdxGo f i segs).length = segs.length := by
  induction segs with
  | nil =>
      intro i
      rfl
  | cons s rest ih =>
      intro i
      rw [mapIdxGo, List.length_cons, List.length_cons, ih (i + 1)]

theorem mapIdxGo_mem {Q : Str → Prop} (f : Nat → SegSpec → Str) (segs : List SegSpec)
    (h : ∀ (j : Nat), ∀ s ∈ segs, Q (f j s)) : ∀ i : Nat, ∀ l ∈ mapIdxGo f i segs, Q l := by
  induction segs with
  | nil =>
      intro i l hl
      simp [mapIdxGo] at hl
  | cons s rest ih =>
      intro i l hl
      rw [mapIdxGo] at hl
      rcases List.mem_cons.mp hl with h1 | hl2
      · rw [h1]
        exact h i s (by simp)
      · exact ih (fun j s2 hs2 => h j s2 (by simp [hs2])) (i + 1) l hl2

theorem goodBlockOk_spec (gb : GoodBlock) (h : goodBlockOk gb = true) :
    strippedNE gb.advs = true ∧ strippedNE gb.sims = true ∧
      strippedNE gb.sime = true ∧ strippedNE gb.advsl = true ∧ gb.segs ≠ [] ∧
      (∀ s ∈ gb.segs, segOk s = true) ∧
      (∀ l ∈ renderLines gb, containsSub esTok (strip l) = false) := by
  unfold goodBlockOk at h
  simp only [Bool.and_eq_true, Bool.not_eq_true', List.all_eq_true] at h
  obtain ⟨⟨⟨⟨⟨⟨h1, h2⟩, h3⟩, h4⟩, h5⟩, h6⟩, h7⟩ := h
  refine ⟨h1, h2, h3, h4, ?_, h6, ?_⟩
  · intro h0
    rw [h0] at h5
    simp at h5
  · intro l hl
    have := h7 l hl
    simpa using this

theorem segOk_spec (s : SegSpec) (h : segOk s = true) :
    s.content ≠ [] ∧ noLB s.content = true ∧ spanOk s.span1 = true ∧
      spanOk s.span2 = true ∧ strippedNE s.lemtext = true ∧
      (∀ e ∈ s.entries, entryOk e = true) := by
  unfold segOk at h
  simp only [Bool.and_eq_true, Bool.not_eq_true', List.all_eq_true] at h
  obtain ⟨⟨⟨⟨⟨h1, h2⟩, h3⟩, h4⟩, h5⟩, h6⟩ := h
  refine ⟨?_, h2, h3, h4, h5, h6⟩
  intro h0
  rw [h0] at h1
  simp at h1

theorem spanOk_spec (sp : Str) (h : spanOk sp = true) :
    strippedNE sp = true ∧ ∀ c ∈ sp, c ≠ '~' := by
  unfold spanOk at h
  simp only [Bool.and_eq_true, List.all_eq_true] at h
  refine ⟨h.1, fun c hc => ?_⟩
  have := h.2 c hc
  simpa using this

theorem fieldOk_spec (f : Str) (h : fieldOk f = true) :
    strippedNE f = true ∧
      ∀ c ∈ f, c ≠ '-' ∧ c ≠ '>' ∧ c ≠ '(' ∧ c ≠ ')' ∧ c ≠ '|' := by
  unfold fieldOk at h
  simp only [Bool.and_eq_true, List.all_eq_true] at h
  refine ⟨h.1, fun c hc => ?_⟩
  have := h.2 c hc
  simp only [Bool.and_eq_true, Bool.not_eq_true', decide_eq_false_iff_not] at this
  exact ⟨this.1.1.1.1, this.1.1.1.2, this.1.1.2, this.1.2, this.2⟩

theorem entryOk_spec (e : DEntry) (h : entryOk e = true) :
    fieldOk e.eng = true ∧ fieldOk e.spa = true ∧ fieldOk e.form = true ∧
      (e.flag = 'Y' ∨ e.flag = 'N') := by
  unfold entryOk at h
  simp only [Bool.and_eq_true] at h
  refine ⟨h.1.1.1, h.1.1.2, h.1.2, ?_⟩
  have := h.2
  simpa using this

theorem markerHitsGo_cons (p : Str → Bool) (a : Str) (ls : List Str) (i : Nat) :
    markerHitsGo p i (a :: ls) =
      (if p a then [i] else []) ++ markerHitsGo p (i + 1) ls := rfl

/-- `markerHitsGo` over the canonical §6 layout, for any predicate that is
false on every segment-derived line: the hits are read off the four header
lines and the four standalone marker lines. -/
theorem renderLines_hitsGo (gb : GoodBlock) (p : Str → Bool)
    (v1 v2 v3 v4 v5 v6 v7 v8 : Bool)
    (h1 : p ((mAdvS ++ [' ']) ++ gb.advs) = v1)
    (h2 : p ((mSimS ++ [' ']) ++ gb.sims) = v2)
    (h3 : p ((mSimE ++ [' ']) ++ gb.sime) = v3)
    (h4 : p mSimS_Segments = v4)
    (hA : ∀ l ∈ mapIdxGo segLine 0 gb.segs, p l = false)
    (h5 : p mPHRASE_ALIGN = v5)
    (hB : ∀ l ∈ mapIdxGo alignLine 0 gb.segs, p l = false)
    (h6 : p mSimSL = v6)
    (hC : ∀ l ∈ mapIdxGo simslLine 0 gb.segs, p l = false)
    (h7 : p ((mAdvSL ++ [' ']) ++ gb.advsl) = v7)
    (h8 : p mDIGLOT_MAP = v8)
    (hD : ∀ l ∈ mapIdxGo diglotLine 0 gb.segs, p l = false) :
    markerHitsGo p 0 (renderLines gb) =
      (if v1 then [0] else []) ++ (if v2 then [1] else []) ++
      (if v3 then [2] else []) ++ (if v4 then [3] else []) ++
      (if v5 then [4 + gb.segs.length] else []) ++
      (if v6 then [5 + 2 * gb.segs.length] else []) ++
      (if v7 then [6 + 3 * gb.segs.length] else []) ++
      (if v8 then [7 + 3 * gb.segs.length] else []) := by
  have hdec : renderLines gb =
      ((mAdvS ++ [' ']) ++ gb.advs) :: ((mSimS ++ [' ']) ++ gb.sims) ::
        ((mSimE ++ [' ']) ++ gb.sime) :: mSimS_Segments ::
        (mapIdxGo segLine 0 gb.segs ++
          (mPHRASE_ALIGN :: (mapIdxGo alignLine 0 gb.segs ++
            (mSimSL :: (mapIdxGo simslLine 0 gb.segs ++
              (((mAdvSL ++ [' ']) ++ gb.advsl) :: mDIGLOT_MAP ::
                mapIdxGo diglotLine 0 gb.segs)))))) := by
    unfold renderLines
    simp
  rw [hdec]
  rw [markerHitsGo_cons, markerHitsGo_cons, markerHitsGo_cons, markerHitsGo_cons]
  rw [show (0 : Nat) + 1 = 1 from rfl, show (1 : Nat) + 1 = 2 from rfl,
    show (2 : Nat) + 1 = 3 from rfl, show (3 : Nat) + 1 = 4 from rfl]
  rw [markerHitsGo_append, markerHitsGo_nil_of_all p _ hA, mapIdxGo_length]
  rw [markerHitsGo_cons]
  rw [show 4 + gb.segs.length + 1 = 5 + gb.segs.length from by omega]
  rw [markerHitsGo_append, markerHitsGo_nil_of_all p _ hB, mapIdxGo_length]
  rw [show 5 + gb.segs.length + gb.segs.length = 5 + 2 * gb.segs.length from by omega]
  rw [markerHitsGo_cons]
  rw [show 5 + 2 * gb.segs.length + 1 = 6 + 2 * gb.segs.length from by omega]
  rw [markerHitsGo_append, markerHitsGo_nil_of_all p _ hC, mapIdxGo_length]
  rw [show 6 + 2 * gb.segs.length + gb.segs.length = 6 + 3 * gb.segs.length from by
    omega]
  rw [markerHitsGo_cons]
  rw [show 6 + 3 * gb.segs.length + 1 = 7 + 3 * gb.segs.length from by omega]
  rw [markerHitsGo_cons]
  rw [markerHitsGo_nil_of_all p _ hD]
  rw [h1, h2, h3, h4, h5, h6, h7, h8]
  simp [List.append_assoc]

theorem segListA_no_marker (gb : GoodBlock) :
    ∀ l ∈ mapIdxGo segLine 0 gb.segs, ∀ m ∈ ALL_POSSIBLE_MARKERS,
      startsWithMarker m l = false :=
  mapIdxGo_mem segLine gb.segs (fun j s _ => segLine_no_marker j s) 0

theorem alignListB_no_marker (gb : GoodBlock) (hok : goodBlockOk gb = true) :
    ∀ l ∈ mapIdxGo alignLine 0 gb.segs, ∀ m ∈ ALL_POSSIBLE_MARKERS,
      startsWithMarker m l = false := by
  obtain ⟨_, _, _, _, _, hsegs, _⟩ := goodBlockOk_spec gb hok
  exact mapIdxGo_mem alignLine gb.segs
    (fun j s hs => alignLine_no_marker j s
      (spanOk_spec _ (segOk_spec s (hsegs s hs)).2.2.2.1).1) 0

theorem simslListC_no_marker (gb : GoodBlock) (hok : goodBlockOk gb = true) :
    ∀ l ∈ mapIdxGo simslLine 0 gb.segs, ∀ m ∈ ALL_POSSIBLE_MARKERS,
      startsWithMarker m l = false := by
  obtain ⟨_, _, _, _, _, hsegs, _⟩ := goodBlockOk_spec gb hok
  exact mapIdxGo_mem simslLine gb.segs
    (fun j s hs => simslLine_no_marker j s (segOk_spec s (hsegs s hs)).2.2.2.2.1) 0

theorem diglotListD_no_marker (gb : GoodBlock) :
    ∀ l ∈ mapIdxGo diglotLine 0 gb.segs, ∀ m ∈ ALL_POSSIBLE_MARKERS,
      startsWithMarker m l = false :=
  mapIdxGo_mem diglotLine gb.segs (fun j s _ => diglotLine_no_marker j s) 0

/-- The Phase-1 hit lists on a canonical §6 block: each required marker is
found exactly once, at its template position; `LOCKED_PHRASE::` never. -/
theorem renderLines_markerHits (gb : GoodBlock) (hok : goodBlockOk gb = true) :
    markerHits (renderLines gb) mAdvS = [0] ∧
      markerHits (renderLines gb) mSimS = [1] ∧
      markerHits (renderLines gb) mSimE = [2] ∧
      markerHits (renderLines gb) mSimS_Segments = [3] ∧
      markerHits (renderLines gb) mPHRASE_ALIGN = [4 + gb.segs.length] ∧
      markerHits (renderLines gb) mSimSL = [5 + 2 * gb.segs.length] ∧
      markerHits (renderLines gb) mAdvSL = [6 + 3 * gb.segs.length] ∧
      markerHits (renderLines gb) mDIGLOT_MAP = [7 + 3 * gb.segs.length] ∧
      markerHits (renderLines gb) mLOCKED_PHRASE = [] := by
  obtain ⟨hadvs, hsims, hsime, hadvsl, _, _, _⟩ := goodBlockOk_spec gb hok
  have hA := segListA_no_marker gb
  have hB := alignListB_no_marker gb hok
  have hC := simslListC_no_marker gb hok
  have hD := diglotListD_no_marker gb
  refine ⟨?_, ?_, ?_, ?_, ?_, ?_, ?_, ?_, ?_⟩
  · unfold markerHits
    rw [renderLines_hitsGo gb _ true false false false false false false false
      (advsHeader_markers gb.advs hadvs).1
      ((simsHeader_markers gb.sims hsims).2 mAdvS (by decide) (by decide))
      ((simeHeader_markers gb.sime hsime).2 mAdvS (by decide) (by decide))
      (by decide)
      (fun l hl => hA l hl mAdvS (by decide))
      (by decide)
      (fun l hl => hB l hl mAdvS (by decide))
      (by decide)
      (fun l hl => hC l hl mAdvS (by decide))
      ((advslHeader_markers gb.advsl hadvsl).2 mAdvS (by decide) (by decide))
      (by decide)
      (fun l hl => hD l hl mAdvS (by decide))]
    simp
  · unfold markerHits
    rw [renderLines_hitsGo gb _ false true false false false false false false
      ((advsHeader_markers gb.advs hadvs).2 mSimS (by decide) (by decide))
      (simsHeader_markers gb.sims hsims).1
      ((simeHeader_markers gb.sime hsime).2 mSimS (by decide) (by decide))
      (by decide)
      (fun l hl => hA l hl mSimS (by decide))
      (by decide)
      (fun l hl => hB l hl mSimS (by decide))
      (by decide)
      (fun l hl => hC l hl mSimS (by decide))
      ((advslHeader_markers gb.advsl hadvsl).2 mSimS (by decide) (by decide))
      (by decide)
      (fun l hl => hD l hl mSimS (by decide))]
    simp
  · unfold markerHits
    rw [renderLines_hitsGo gb _ false false true false false false false false
      ((advsHeader_markers gb.advs hadvs).2 mSimE (by decide) (by decide))
      ((simsHeader_markers gb.sims hsims).2 mSimE (by decide) (by decide))
      (simeHeader_markers gb.sime hsime).1
      (by decide)
      (fun l hl => hA l hl mSimE (by decide))
      (by decide)
      (fun l hl => hB l hl mSimE (by decide))
      (by decide)
      (fun l hl => hC l hl mSimE (by decide))
      ((advslHeader_markers gb.advsl hadvsl).2 mSimE (by decide) (by decide))
      (by decide)
      (fun l hl => hD l hl mSimE (by decide))]
    simp
  · unfold markerHits
    rw [renderLines_hitsGo gb _ false false false true false false false false
      ((advsHeader_markers gb.advs hadvs).2 mSimS_Segments (by decide) (by decide))
      ((simsHeader_markers gb.sims hsims).2 mSimS_Segments (by decide) (by decide))
      ((simeHeader_markers gb.sime hsime).2 mSimS_Segments (by decide) (by decide))
      (by decide)
      (fun l hl => hA l hl mSimS_Segments (by decide))
      (by decide)
      (fun l hl => hB l hl mSimS_Segments (by decide))
      (by decide)
      (fun l hl => hC l hl mSimS_Segments (by decide))
      ((advslHeader_markers gb.advsl hadvsl).2 mSimS_Segments (by decide) (by decide))
      (by decide)
      (fun l hl => hD l hl mSimS_Segments (by decide))]
    simp
  · unfold markerHits
    rw [renderLines_hitsGo gb _ false false false false true false false false
      ((advsHeader_markers gb.advs hadvs).2 mPHRASE_ALIGN (by decide) (by decide))
      ((simsHeader_markers gb.sims hsims).2 mPHRASE_ALIGN (by decide) (by decide))
      ((simeHeader_markers gb.sime hsime).2 mPHRASE_ALIGN (by decide) (by decide))
      (by decide)
      (fun l hl => hA l hl mPHRASE_ALIGN (by decide))
      (by decide)
      (fun l hl => hB l hl mPHRASE_ALIGN (by decide))
      (by decide)
      (fun l hl => hC l hl mPHRASE_ALIGN (by decide))
      ((advslHeader_markers gb.advsl hadvsl).2 mPHRASE_ALIGN (by decide) (by decide))
      (by decide)
      (fun l hl => hD l hl mPHRASE_ALIGN (by decide))]
    simp
  · unfold markerHits
    rw [renderLines_hitsGo gb _ false false false false false true false false
      ((advsHeader_markers gb.advs hadvs).2 mSimSL (by decide) (by decide))
      ((simsHeader_markers gb.sims hsims).2 mSimSL (by decide) (by decide))
      ((simeHeader_markers gb.sime hsime).2 mSimSL (by decide) (by decide))
      (by decide)
      (fun l hl => hA l hl mSimSL (by decide))
      (by decide)
      (fun l hl => hB l hl mSimSL (by decide))
      (by decide)
      (fun l hl => hC l hl mSimSL (by decide))
      ((advslHeader_markers gb.advsl hadvsl).2 mSimSL (by decide) (by decide))
      (by decide)
      (fun l hl => hD l hl mSimSL (by decide))]
    simp
  · unfold markerHits
    rw [renderLines_hitsGo gb _ false false false false false false true false
      ((advsHeader_markers gb.advs hadvs).2 mAdvSL (by decide) (by decide))
      ((simsHeader_markers gb.sims hsims).2 mAdvSL (by decide) (by decide))
      ((simeHeader_markers gb.sime hsime).2 mAdvSL (by decide) (by decide))
      (by decide)
      (fun l hl => hA l hl mAdvSL (by decide))
      (by decide)
      (fun l hl => hB l hl mAdvSL (by decide))
      (by decide)
      (fun l hl => hC l hl mAdvSL (by decide))
      (advslHeader_markers gb.advsl hadvsl).1
      (by decide)
      (fun l hl => hD l hl mAdvSL (by decide))]
    simp
  · unfold markerHits
    rw [renderLines_hitsGo gb _ false false false false false false false true
      ((advsHeader_markers gb.advs hadvs).2 mDIGLOT_MAP (by decide) (by decide))
      ((simsHeader_markers gb.sims hsims).2 mDIGLOT_MAP (by decide) (by decide))
      ((simeHeader_markers gb.sime hsime).2 mDIGLOT_MAP (by decide) (by decide))
      (by decide)
      (fun l hl => hA l hl mDIGLOT_MAP (by decide))
      (by decide)
      (fun l hl => hB l hl mDIGLOT_MAP (by decide))
      (by decide)
      (fun l hl => hC l hl mDIGLOT_MAP (by decide))
      ((advslHeader_markers gb.advsl hadvsl).2 mDIGLOT_MAP (by decide) (by decide))
      (by decide)
      (fun l hl => hD l hl mDIGLOT_MAP (by decide))]
    simp
  · unfold markerHits
    rw [renderLines_hitsGo gb _ false false false false false false false false
      ((advsHeader_markers gb.advs hadvs).2 mLOCKED_PHRASE (by decide) (by decide))
      ((simsHeader_markers gb.sims hsims).2 mLOCKED_PHRASE (by decide) (by decide))
      ((simeHeader_markers gb.sime hsime).2 mLOCKED_PHRASE (by decide) (by decide))
      (by decide)
      (fun l hl => hA l hl mLOCKED_PHRASE (by decide))
      (by decide)
      (fun l hl => hB l hl mLOCKED_PHRASE (by decide))
      (by decide)
      (fun l hl => hC l hl mLOCKED_PHRASE (by decide))
      ((advslHeader_markers gb.advsl hadvsl).2 mLOCKED_PHRASE (by decide) (by decide))
      (by decide)
      (fun l hl => hD l hl mLOCKED_PHRASE (by decide))]
    simp

theorem renderLines_scanErrs (gb : GoodBlock) (hok : goodBlockOk gb = true) :
    markerScanErrs (renderLines gb) = [] := by
  obtain ⟨h1, h2, h3, h4, h5, h6, h7, h8, h9⟩ := renderLines_markerHits gb hok
  have e1 : scanReqErrs (renderLines gb) mAdvS = [] := by
    unfold scanReqErrs
    rw [h1]
    rfl
  have e2 : scanReqErrs (renderLines gb) mSimS = [] := by
    unfold scanReqErrs
    rw [h2]
    rfl
  have e3 : scanReqErrs (renderLines gb) mSimE = [] := by
    unfold scanReqErrs
    rw [h3]
    rfl
  have e4 : scanReqErrs (renderLines gb) mSimS_Segments = [] := by
    unfold scanReqErrs
    rw [h4]
    rfl
  have e5 : scanReqErrs (renderLines gb) mPHRASE_ALIGN = [] := by
    unfold scanReqErrs
    rw [h5]
    rfl
  have e6 : scanReqErrs (renderLines gb) mSimSL = [] := by
    unfold scanReqErrs
    rw [h6]
    rfl
  have e7 : scanReqErrs (renderLines gb) mAdvSL = [] := by
    unfold scanReqErrs
    rw [h7]
    rfl
  have e8 : scanReqErrs (renderLines gb) mDIGLOT_MAP = [] := by
    unfold scanReqErrs
    rw [h8]
    rfl
  have e9 : scanOptErrs (renderLines gb) mLOCKED_PHRASE = [] := by
    unfold scanOptErrs
    rw [h9]
  unfold markerScanErrs REQUIRED_SECTION_MARKERS OPTIONAL_SECTION_MARKERS
  simp [List.flatMap_cons, List.flatMap_nil, e1, e2, e3, e4, e5, e6, e7, e8, e9]

theorem renderLines_orderErrs (gb : GoodBlock) (hok : goodBlockOk gb = true) :
    orderErrs (renderLines gb) = [] := by
  obtain ⟨h1, h2, h3, h4, h5, h6, h7, h8, _⟩ := renderLines_markerHits gb hok
  have r1 : requiredIdx (renderLines gb) mAdvS = 0 := by
    unfold requiredIdx
    rw [h1]
    rfl
  have r2 : requiredIdx (renderLines gb) mSimS = 1 := by
    unfold requiredIdx
    rw [h2]
    rfl
  have r3 : requiredIdx (renderLines gb) mSimE = 2 := by
    unfold requiredIdx
    rw [h3]
    rfl
  have r4 : requiredIdx (renderLines gb) mSimS_Segments = 3 := by
    unfold requiredIdx
    rw [h4]
    rfl
  have r5 : requiredIdx (renderLines gb) mPHRASE_ALIGN = 4 + gb.segs.length := by
    unfold requiredIdx
    rw [h5]
    rfl
  have r6 : requiredIdx (renderLines gb) mSimSL = 5 + 2 * gb.segs.length := by
    unfold requiredIdx
    rw [h6]
    rfl
  have r7 : requiredIdx (renderLines gb) mAdvSL = 6 + 3 * gb.segs.length := by
    unfold requiredIdx
    rw [h7]
    rfl
  have r8 : requiredIdx (renderLines gb) mDIGLOT_MAP = 7 + 3 * gb.segs.length := by
    unfold requiredIdx
    rw [h8]
    rfl
  unfold orderErrs REQUIRED_SECTION_MARKERS
  simp only [orderErrsGo, r1, r2, r3, r4, r5, r6, r7, r8]
  repeat rw [if_neg (by omega)]
  simp

theorem map_strip_filter_id (ls : List Str) (h : ∀ l ∈ ls, strip l = l ∧ l ≠ []) :
    (ls.map strip).filter (fun l => !l.isEmpty) = ls := by
  induction ls with
  | nil => rfl
  | cons a t ih =>
      obtain ⟨ha1, ha2⟩ := h a (by simp)
      rw [List.map_cons, List.filter_cons, ha1]
      have hne : (!a.isEmpty) = true := by
        cases a with
        | nil => exact absurd rfl ha2
        | cons _ _ => rfl
      rw [if_pos hne, ih (fun l hl => h l (by simp [hl]))]

theorem anyMarker_false_of (allM : List Str) (l : Str)
    (h : ∀ m ∈ allM, startsWithMarker m l = false) : anyMarker allM l = false := by
  unfold anyMarker
  rw [List.any_eq_false]
  intro m hm
  rw [h m hm]
  simp

theorem renderLines_body_facts (gb : GoodBlock) (hok : goodBlockOk gb = true) :
    (∀ l ∈ mapIdxGo segLine 0 gb.segs, anyMarker ALL_POSSIBLE_MARKERS l = false) ∧
      (∀ l ∈ mapIdxGo alignLine 0 gb.segs, anyMarker ALL_POSSIBLE_MARKERS l = false) ∧
      (∀ l ∈ mapIdxGo simslLine 0 gb.segs, anyMarker ALL_POSSIBLE_MARKERS l = false) ∧
      (∀ l ∈ mapIdxGo diglotLine 0 gb.segs, anyMarker ALL_POSSIBLE_MARKERS l = false) :=
  ⟨fun l hl => anyMarker_false_of _ _ (segListA_no_marker gb l hl),
   fun l hl => anyMarker_false_of _ _ (alignListB_no_marker gb hok l hl),
   fun l hl => anyMarker_false_of _ _ (simslListC_no_marker gb hok l hl),
   fun l hl => anyMarker_false_of _ _ (diglotListD_no_marker gb l hl)⟩

theorem renderLines_gsc_p2 (gb : GoodBlock) (hok : goodBlockOk gb = true) :
    get_section_content (renderLines gb) mSimS_Segments ALL_POSSIBLE_MARKERS =
      some (mapIdxGo segLine 0 gb.segs, 3) := by
  obtain ⟨hadvs, hsims, hsime, hadvsl, _, hsegs, _⟩ := goodBlockOk_spec gb hok
  obtain ⟨bA, bB, bC, bD⟩ := renderLines_body_facts gb hok
  have hdec : renderLines gb =
      [(mAdvS ++ [' ']) ++ gb.advs, (mSimS ++ [' ']) ++ gb.sims,
        (mSimE ++ [' ']) ++ gb.sime] ++ mSimS_Segments ::
        (mapIdxGo segLine 0 gb.segs ++
          (mPHRASE_ALIGN :: (mapIdxGo alignLine 0 gb.segs ++
            (mSimSL :: (mapIdxGo simslLine 0 gb.segs ++
              (((mAdvSL ++ [' ']) ++ gb.advsl) :: mDIGLOT_MAP ::
                mapIdxGo diglotLine 0 gb.segs)))))) := by
    unfold renderLines
    simp
  rw [gsc_found _ _ _ _ _ _ _ hdec ?hpre ?hmk ?hbody ?hpost]
  case hpre =>
    intro l hl
    simp only [List.mem_cons, List.mem_singleton, List.not_mem_nil, or_false] at hl
    rcases hl with h | h | h <;> subst h
    · exact (advsHeader_markers gb.advs hadvs).2 mSimS_Segments (by decide) (by decide)
    · exact (simsHeader_markers gb.sims hsims).2 mSimS_Segments (by decide) (by decide)
    · exact (simeHeader_markers gb.sime hsime).2 mSimS_Segments (by decide) (by decide)
  case hmk => decide
  case hbody => exact bA
  case hpost => exact Or.inr ⟨mPHRASE_ALIGN, _, rfl, by decide⟩
  rw [show inlineContent mSimS_Segments mSimS_Segments = [] from by decide]
  rw [map_strip_filter_id _ (mapIdxGo_mem segLine gb.segs
    (fun j s _ => ⟨strip_id_segLine j s, by unfold segLine segIdStr; simp⟩) 0)]
  rfl

theorem renderLines_gsc_p3 (gb : GoodBlock) (hok : goodBlockOk gb = true) :
    get_section_content (renderLines gb) mPHRASE_ALIGN ALL_POSSIBLE_MARKERS =
      some (mapIdxGo alignLine 0 gb.segs, 4 + gb.segs.length) := by
  obtain ⟨hadvs, hsims, hsime, hadvsl, _, hsegs, _⟩ := goodBlockOk_spec gb hok
  obtain ⟨bA, bB, bC, bD⟩ := renderLines_body_facts gb hok
  have hdec : renderLines gb =
      ([(mAdvS ++ [' ']) ++ gb.advs, (mSimS ++ [' ']) ++ gb.sims,
        (mSimE ++ [' ']) ++ gb.sime, mSimS_Segments] ++
        mapIdxGo segLine 0 gb.segs) ++ mPHRASE_ALIGN ::
        (mapIdxGo alignLine 0 gb.segs ++
          (mSimSL :: (mapIdxGo simslLine 0 gb.segs ++
            (((mAdvSL ++ [' ']) ++ gb.advsl) :: mDIGLOT_MAP ::
              mapIdxGo diglotLine 0 gb.segs)))) := by
    unfold renderLines
    simp
  rw [gsc_found _ _ _ _ _ _ _ hdec ?hpre ?hmk ?hbody ?hpost]
  case hpre =>
    intro l hl
    rw [List.mem_append] at hl
    rcases hl with hl | hl
    · simp only [List.mem_cons, List.mem_singleton, List.not_mem_nil, or_false] at hl
      rcases hl with h | h | h | h <;> subst h
      · exact (advsHeader_markers gb.advs hadvs).2 mPHRASE_ALIGN (by decide) (by decide)
      · exact (simsHeader_markers gb.sims hsims).2 mPHRASE_ALIGN (by decide) (by decide)
      · exact (simeHeader_markers gb.sime hsime).2 mPHRASE_ALIGN (by decide) (by decide)
      · decide
    · exact segListA_no_marker gb l hl mPHRASE_ALIGN (by decide)
  case hmk => decide
  case hbody => exact bB
  case hpost => exact Or.inr ⟨mSimSL, _, rfl, by decide⟩
  rw [show inlineContent mPHRASE_ALIGN mPHRASE_ALIGN = [] from by decide]
  rw [map_strip_filter_id _ (mapIdxGo_mem alignLine gb.segs
    (fun j s hs => ⟨strip_id_alignLine j s
        (spanOk_spec _ (segOk_spec s (hsegs s hs)).2.2.2.1).1,
      by unfold alignLine segIdStr; simp⟩) 0)]
  have hlen : ([(mAdvS ++ [' ']) ++ gb.advs, (mSimS ++ [' ']) ++ gb.sims,
      (mSimE ++ [' ']) ++ gb.sime, mSimS_Segments] ++
      mapIdxGo segLine 0 gb.segs).length = 4 + gb.segs.length := by
    rw [List.length_append, mapIdxGo_length]
    rfl
  rw [hlen]
  simp

theorem renderLines_gsc_p4 (gb : GoodBlock) (hok : goodBlockOk gb = true) :
    get_section_content (renderLines gb) mSimSL ALL_POSSIBLE_MARKERS =
      some (mapIdxGo simslLine 0 gb.segs, 5 + 2 * gb.segs.length) := by
  obtain ⟨hadvs, hsims, hsime, hadvsl, _, hsegs, _⟩ := goodBlockOk_spec gb hok
  obtain ⟨bA, bB, bC, bD⟩ := renderLines_body_facts gb hok
  have hdec : renderLines gb =
      (([(mAdvS ++ [' ']) ++ gb.advs, (mSimS ++ [' ']) ++ gb.sims,
        (mSimE ++ [' ']) ++ gb.sime, mSimS_Segments] ++
        mapIdxGo segLine 0 gb.segs) ++ mPHRASE_ALIGN ::
          mapIdxGo alignLine 0 gb.segs) ++ mSimSL ::
        (mapIdxGo simslLine 0 gb.segs ++
          (((mAdvSL ++ [' ']) ++ gb.advsl) :: mDIGLOT_MAP ::
            mapIdxGo diglotLine 0 gb.segs)) := by
    unfold renderLines
    simp
  rw [gsc_found _ _ _ _ _ _ _ hdec ?hpre ?hmk ?hbody ?hpost]
  case hpre =>
    intro l hl
    rw [List.mem_append] at hl
    rcases hl with hl | hl
    · rw [List.mem_append] at hl
      rcases hl with hl | hl
      · simp only [List.mem_cons, List.mem_singleton, List.not_mem_nil, or_false] at hl
        rcases hl with h | h | h | h <;> subst h
        · exact (advsHeader_markers gb.advs hadvs).2 mSimSL (by decide) (by decide)
        · exact (simsHeader_markers gb.sims hsims).2 mSimSL (by decide) (by decide)
        · exact (simeHeader_markers gb.sime hsime).2 mSimSL (by decide) (by decide)
        · decide
      · exact segListA_no_marker gb l hl mSimSL (by decide)
    · rcases List.mem_cons.mp hl with h | hl2
      · subst h
        decide
      · exact alignListB_no_marker gb hok l hl2 mSimSL (by decide)
  case hmk => decide
  case hbody => exact bC
  case hpost => exact Or.inr ⟨(mAdvSL ++ [' ']) ++ gb.advsl, _, rfl,
    by unfold anyMarker; rw [List.any_eq_true]; exact ⟨mAdvSL, by decide,
      by rw [(advslHeader_markers gb.advsl hadvsl).1]⟩⟩
  rw [show inlineContent mSimSL mSimSL = [] from by decide]
  rw [map_strip_filter_id _ (mapIdxGo_mem simslLine gb.segs
    (fun j s hs => ⟨strip_id_simslLine j s (segOk_spec s (hsegs s hs)).2.2.2.2.1,
      by unfold simslLine segIdStr; simp⟩) 0)]
  have hlen : ((([(mAdvS ++ [' ']) ++ gb.advs, (mSimS ++ [' ']) ++ gb.sims,
      (mSimE ++ [' ']) ++ gb.sime, mSimS_Segments] ++
      mapIdxGo segLine 0 gb.segs) ++ mPHRASE_ALIGN ::
        mapIdxGo alignLine 0 gb.segs)).length = 5 + 2 * gb.segs.length := by
    simp [mapIdxGo_length]
    omega
  rw [hlen]
  simp

theorem renderLines_gsc_p5 (gb : GoodBlock) (hok : goodBlockOk gb = true) :
    get_section_content (renderLines gb) mAdvSL ALL_POSSIBLE_MARKERS =
      some ([gb.advsl], 6 + 3 * gb.segs.length) := by
  obtain ⟨hadvs, hsims, hsime, hadvsl, _, hsegs, _⟩ := goodBlockOk_spec gb hok
  obtain ⟨bA, bB, bC, bD⟩ := renderLines_body_facts gb hok
  have hdec : renderLines gb =
      ((([(mAdvS ++ [' ']) ++ gb.advs, (mSimS ++ [' ']) ++ gb.sims,
        (mSimE ++ [' ']) ++ gb.sime, mSimS_Segments] ++
        mapIdxGo segLine 0 gb.segs) ++ mPHRASE_ALIGN ::
          mapIdxGo alignLine 0 gb.segs) ++ mSimSL ::
          mapIdxGo simslLine 0 gb.segs) ++ ((mAdvSL ++ [' ']) ++ gb.advsl) ::
        ([] ++ (mDIGLOT_MAP :: mapIdxGo diglotLine 0 gb.segs)) := by
    unfold renderLines
    simp
  rw [gsc_found _ _ _ _ _ _ _ hdec ?hpre ?hmk ?hbody ?hpost]
  case hpre =>
    intro l hl
    rw [List.mem_append] at hl
    rcases hl with hl | hl
    · rw [List.mem_append] at hl
      rcases hl with hl | hl
      · rw [List.mem_append] at hl
        rcases hl with hl | hl
        · simp only [List.mem_cons, List.mem_singleton, List.not_mem_nil,
            or_false] at hl
          rcases hl with h | h | h | h <;> subst h
          · exact (advsHeader_markers gb.advs hadvs).2 mAdvSL (by decide) (by decide)
          · exact (simsHeader_markers gb.sims hsims).2 mAdvSL (by decide) (by decide)
          · exact (simeHeader_markers gb.sime hsime).2 mAdvSL (by decide) (by decide)
          · decide
        · exact segListA_no_marker gb l hl mAdvSL (by decide)
      · rcases List.mem_cons.mp hl with h | hl2
        · subst h
          decide
        · exact alignListB_no_marker gb hok l hl2 mAdvSL (by decide)
    · rcases List.mem_cons.mp hl with h | hl2
      · subst h
        decide
      · exact simslListC_no_marker gb hok l hl2 mAdvSL (by decide)
  case hmk => exact (advslHeader_markers gb.advsl hadvsl).1
  case hbody =>
    intro l hl
    simp at hl
  case hpost => exact Or.inr ⟨mDIGLOT_MAP, _, rfl, by decide⟩
  have hinl : inlineContent mAdvSL ((mAdvSL ++ [' ']) ++ gb.advsl) = [gb.advsl] := by
    obtain ⟨hne, _, _, _, _⟩ := strippedNE_spec gb.advsl hadvsl
    have hstr : strip gb.advsl = gb.advsl := (strippedNE_spec gb.advsl hadvsl).2.1
    simp only [inlineContent]
    rw [strip_id_header mAdvSL gb.advsl 'A' _ rfl (by decide) hadvsl]
    rw [if_pos (by simp [List.length_append] <;> omega :
      mAdvSL.length < ((mAdvSL ++ [' ']) ++ gb.advsl).length)]
    rw [List.append_assoc, List.drop_left, List.singleton_append]
    rw [show strip (' ' :: gb.advsl) = gb.advsl from by
      unfold strip
      rw [lstrip_cons_ws ' ' _ (by decide)]
      exact hstr]
    have hie : gb.advsl.isEmpty = false := by
      cases h0 : gb.advsl with
      | nil => exact absurd h0 hne
      | cons _ _ => rfl
    rw [hie]
    simp
  rw [hinl]
  have hlen : (((([(mAdvS ++ [' ']) ++ gb.advs, (mSimS ++ [' ']) ++ gb.sims,
      (mSimE ++ [' ']) ++ gb.sime, mSimS_Segments] ++
      mapIdxGo segLine 0 gb.segs) ++ mPHRASE_ALIGN ::
        mapIdxGo alignLine 0 gb.segs) ++ mSimSL ::
        mapIdxGo simslLine 0 gb.segs)).length = 6 + 3 * gb.segs.length := by
    simp [mapIdxGo_length]
    omega
  rw [hlen]
  simp

theorem renderLines_gsc_p6 (gb : GoodBlock) (hok : goodBlockOk gb = true) :
    get_section_content (renderLines gb) mDIGLOT_MAP ALL_POSSIBLE_MARKERS =
      some (mapIdxGo diglotLine 0 gb.segs, 7 + 3 * gb.segs.length) := by
  obtain ⟨hadvs, hsims, hsime, hadvsl, _, hsegs, _⟩ := goodBlockOk_spec gb hok
  obtain ⟨bA, bB, bC, bD⟩ := renderLines_body_facts gb hok
  have hdec : renderLines gb =
      (((([(mAdvS ++ [' ']) ++ gb.advs, (mSimS ++ [' ']) ++ gb.sims,
        (mSimE ++ [' ']) ++ gb.sime, mSimS_Segments] ++
        mapIdxGo segLine 0 gb.segs) ++ mPHRASE_ALIGN ::
          mapIdxGo alignLine 0 gb.segs) ++ mSimSL ::
          mapIdxGo simslLine 0 gb.segs) ++ [(mAdvSL ++ [' ']) ++ gb.advsl]) ++
        mDIGLOT_MAP :: (mapIdxGo diglotLine 0 gb.segs ++ []) := by
    unfold renderLines
    simp
  rw [gsc_found _ _ _ _ _ _ _ hdec ?hpre ?hmk ?hbody ?hpost]
  case hpre =>
    intro l hl
    rw [List.mem_append] at hl
    rcases hl with hl | hl
    · rw [List.mem_append] at hl
      rcases hl with hl | hl
      · rw [List.mem_append] at hl
        rcases hl with hl | hl
        · rw [List.mem_append] at hl
          rcases hl with hl | hl
          · simp only [List.mem_cons, List.mem_singleton, List.not_mem_nil,
              or_false] at hl
            rcases hl with h | h | h | h <;> subst h
            · exact (advsHeader_markers gb.advs hadvs).2 mDIGLOT_MAP (by decide)
                (by decide)
            · exact (simsHeader_markers gb.sims hsims).2 mDIGLOT_MAP (by decide)
                (by decide)
            · exact (simeHeader_markers gb.sime hsime).2 mDIGLOT_MAP (by decide)
                (by decide)
            · decide
          · exact segListA_no_marker gb l hl mDIGLOT_MAP (by decide)
        · rcases List.mem_cons.mp hl with h | hl2
          · subst h
            decide
          · exact alignListB_no_marker gb hok l hl2 mDIGLOT_MAP (by decide)
      · rcases List.mem_cons.mp hl with h | hl2
        · subst h
          decide
        · exact simslListC_no_marker gb hok l hl2 mDIGLOT_MAP (by decide)
    · rw [List.mem_singleton] at hl
      subst hl
      exact (advslHeader_markers gb.advsl hadvsl).2 mDIGLOT_MAP (by decide) (by decide)
  case hmk => decide
  case hbody => exact bD
  case hpost => exact Or.inl rfl
  rw [show inlineContent mDIGLOT_MAP mDIGLOT_MAP = [] from by decide]
  rw [map_strip_filter_id _ (mapIdxGo_mem diglotLine gb.segs
    (fun j s _ => ⟨strip_id_diglotLine j s, by unfold diglotLine segIdStr; simp⟩) 0)]
  have hlen : ((((([(mAdvS ++ [' ']) ++ gb.advs, (mSimS ++ [' ']) ++ gb.sims,
      (mSimE ++ [' ']) ++ gb.sime, mSimS_Segments] ++
      mapIdxGo segLine 0 gb.segs) ++ mPHRASE_ALIGN ::
        mapIdxGo alignLine 0 gb.segs) ++ mSimSL ::
        mapIdxGo simslLine 0 gb.segs) ++ [(mAdvSL ++ [' ']) ++ gb.advsl])).length =
      7 + 3 * gb.segs.length := by
    simp [mapIdxGo_length]
    omega
  rw [hlen]
  simp

theorem dropWhile_append_stop {α : Type} (p : α → Bool) (xs : List α) (y : α)
    (ys : List α) (hall : ∀ x ∈ xs, p x = true) (hy : p y = false) :
    (xs ++ y :: ys).dropWhile p = y :: ys := by
  induction xs with
  | nil => simp [List.dropWhile_cons, hy]
  | cons a t ih =>
      rw [List.cons_append, List.dropWhile_cons, if_pos (hall a (by simp))]
      exact ih (fun x hx => hall x (by simp [hx]))

theorem parseSegLine_segLine (i : Nat) (s : SegSpec) :
    parseSegLine (segLine i s) = some (segIdStr (i + 1), s.content) := by
  have hform : segLine i s =
      'S' :: (natToStr (i + 1) ++ '(' :: (s.content ++ [')'])) := by
    unfold segLine segIdStr
    simp
  rw [hform]
  unfold parseSegLine
  dsimp only
  rw [if_pos rfl]
  rw [takeWhile_append_stop _ _ _ _ (natToStr_digits (i + 1)) (by decide)]
  rw [dropWhile_append_stop _ _ _ _ (natToStr_digits (i + 1)) (by decide)]
  rw [if_neg (by simp [List.isEmpty_iff, natToStr_ne_nil])]
  dsimp only
  rw [if_pos rfl]
  rw [show (s.content ++ [')']).reverse = ')' :: s.content.reverse from by simp]
  dsimp only
  rw [if_pos rfl]
  simp [segIdStr]

theorem splitAtChar_boundary (c : Char) (xs ys : Str) (h : ∀ x ∈ xs, x ≠ c) :
    splitAtChar c (xs ++ c :: ys) = some (xs, ys) := by
  induction xs with
  | nil => simp [splitAtChar]
  | cons a t ih =>
      rw [List.cons_append]
      unfold splitAtChar
      rw [if_neg (h a (by simp))]
      rw [ih (fun x hx => h x (by simp [hx]))]
      rfl

theorem lstrip_id_of_strippedNE (s : Str) (h : strippedNE s = true) :
    lstrip s = s := by
  obtain ⟨_, _, _, ⟨c, t, rfl, hc⟩, _⟩ := strippedNE_spec s h
  exact lstrip_cons_not_ws c t hc

theorem rstrip_id_of_strippedNE (s : Str) (h : strippedNE s = true) :
    rstrip s = s := by
  obtain ⟨_, _, _, _, ⟨c, t, hrev, hc⟩⟩ := strippedNE_spec s h
  exact rstrip_of_rev_cons s c t hrev hc

theorem lstrip_append_of_strippedNE (s r : Str) (h : strippedNE s = true) :
    lstrip (s ++ r) = s ++ r := by
  obtain ⟨_, _, _, ⟨c, t, rfl, hc⟩, _⟩ := strippedNE_spec s h
  rw [List.cons_append]
  exact lstrip_cons_not_ws c _ hc

theorem parsePhraseAlign_alignLine (i : Nat) (s : SegSpec)
    (h1 : spanOk s.span1 = true) (h2 : spanOk s.span2 = true) :
    parsePhraseAlign (alignLine i s) =
      some (segIdStr (i + 1), s.span1, s.span2) := by
  obtain ⟨h1s, h1t⟩ := spanOk_spec s.span1 h1
  obtain ⟨h2s, _⟩ := spanOk_spec s.span2 h2
  have hform : alignLine i s =
      'S' :: (natToStr (i + 1) ++ ' ' :: '~' :: ' ' ::
        (s.span1 ++ ' ' :: '~' :: ' ' :: s.span2)) := by
    unfold alignLine segIdStr
    simp [lit]
  rw [hform]
  unfold parsePhraseAlign
  dsimp only
  rw [if_pos rfl]
  rw [takeWhile_append_stop _ _ _ _ (natToStr_digits (i + 1)) (by decide)]
  rw [dropWhile_append_stop _ _ _ _ (natToStr_digits (i + 1)) (by decide)]
  rw [if_neg (by simp [List.isEmpty_iff, natToStr_ne_nil])]
  rw [lstrip_cons_ws ' ' _ (by decide), lstrip_cons_not_ws '~' _ (by decide)]
  dsimp only
  rw [if_pos rfl]
  rw [lstrip_cons_ws ' ' _ (by decide)]
  rw [lstrip_append_of_strippedNE _ _ h1s]
  rw [show s.span1 ++ ' ' :: '~' :: ' ' :: s.span2 =
    (s.span1 ++ [' ']) ++ '~' :: (' ' :: s.span2) from by simp]
  rw [splitAtChar_boundary '~' (s.span1 ++ [' ']) (' ' :: s.span2) ?hno]
  case hno =>
    intro x hx
    rw [List.mem_append] at hx
    rcases hx with hx | hx
    · exact h1t x hx
    · simp only [List.mem_singleton] at hx
      subst hx
      decide
  dsimp only
  rw [rstrip_append_ws _ ' ' (by decide), rstrip_id_of_strippedNE _ h1s]
  rw [lstrip_cons_ws ' ' _ (by decide), lstrip_id_of_strippedNE _ h2s]
  simp [segIdStr]

theorem parseLemmaLine_simslLine (i : Nat) (s : SegSpec)
    (h : strippedNE s.lemtext = true) :
    parseLemmaLine (simslLine i s) = some (segIdStr (i + 1), s.lemtext) := by
  have hform : simslLine i s =
      'S' :: (natToStr (i + 1) ++ ' ' :: ':' :: ':' :: (' ' :: s.lemtext)) := by
    unfold simslLine segIdStr
    simp [lit]
  rw [hform]
  unfold parseLemmaLine
  dsimp only
  rw [if_pos rfl]
  rw [takeWhile_append_stop _ _ _ _ (natToStr_digits (i + 1)) (by decide)]
  rw [dropWhile_append_stop _ _ _ _ (natToStr_digits (i + 1)) (by decide)]
  rw [if_neg (by simp [List.isEmpty_iff, natToStr_ne_nil])]
  rw [lstrip_cons_ws ' ' _ (by decide), lstrip_cons_not_ws ':' _ (by decide)]
  dsimp only
  rw [if_pos ⟨rfl, rfl⟩]
  rw [lstrip_cons_ws ' ' _ (by decide), lstrip_id_of_strippedNE _ h]
  simp [segIdStr]

theorem renderEntries_cons_decomp (e : DEntry) (rest : List DEntry) :
    ∃ R, renderEntries (e :: rest) = renderEntry e ++ R := by
  cases rest with
  | nil =>
      refine ⟨[], ?_⟩
      unfold renderEntries
      simp [joinSep]
  | cons e2 t =>
      refine ⟨lit (" | ") ++
        joinSep (lit (" | ")) (renderEntry e2 :: List.map renderEntry t), ?_⟩
      unfold renderEntries
      rw [List.map_cons, List.map_cons, joinSep]
      simp

theorem renderEntry_decomp (e : DEntry) :
    ∃ X, renderEntry e = e.eng ++ X :=
  ⟨'-' :: '>' :: (e.spa ++ '(' :: (e.form ++ ')' :: '(' :: e.flag :: [')'])),
   by unfold renderEntry; simp⟩

theorem renderEntries_head (es : List DEntry) (hne : es ≠ [])
    (hok : ∀ e ∈ es, entryOk e = true) :
    ∃ c t, renderEntries es = c :: t ∧ isWsChar c = false := by
  cases es with
  | nil => exact absurd rfl hne
  | cons e rest =>
      obtain ⟨R, hR⟩ := renderEntries_cons_decomp e rest
      obtain ⟨X, hX⟩ := renderEntry_decomp e
      have heng := (entryOk_spec e (hok e (by simp))).1
      obtain ⟨_, _, _, ⟨c, t, hct, hc⟩, _⟩ :=
        strippedNE_spec e.eng (fieldOk_spec e.eng heng).1
      refine ⟨c, (t ++ X) ++ R, ?_, hc⟩
      rw [hR, hX, hct]
      simp

theorem parseLemmaLine_diglotLine (i : Nat) (s : SegSpec)
    (hok : ∀ e ∈ s.entries, entryOk e = true) :
    parseLemmaLine (diglotLine i s) =
      some (segIdStr (i + 1),
        if s.entries.isEmpty then [] else renderEntries s.entries) := by
  by_cases he : s.entries.isEmpty = true
  · have hform : diglotLine i s =
        'S' :: (natToStr (i + 1) ++ ' ' :: ':' :: ':' :: ([] : Str)) := by
      unfold diglotLine segIdStr
      rw [if_pos he]
      simp [lit]
    rw [hform]
    unfold parseLemmaLine
    dsimp only
    rw [if_pos rfl]
    rw [takeWhile_append_stop _ _ _ _ (natToStr_digits (i + 1)) (by decide)]
    rw [dropWhile_append_stop _ _ _ _ (natToStr_digits (i + 1)) (by decide)]
    rw [if_neg (by simp [List.isEmpty_iff, natToStr_ne_nil])]
    rw [lstrip_cons_ws ' ' _ (by decide), lstrip_cons_not_ws ':' _ (by decide)]
    dsimp only
    rw [if_pos ⟨rfl, rfl⟩]
    rw [if_pos he]
    simp [segIdStr, lstrip]
  · have hne : s.entries ≠ [] := fun h0 => he (by rw [h0]; rfl)
    obtain ⟨c, t, hct, hc⟩ := renderEntries_head s.entries hne hok
    have hform : diglotLine i s =
        'S' :: (natToStr (i + 1) ++ ' ' :: ':' :: ':' ::
          (' ' :: renderEntries s.entries)) := by
      unfold diglotLine segIdStr
      rw [if_neg he]
      simp [lit]
    rw [hform]
    unfold parseLemmaLine
    dsimp only
    rw [if_pos rfl]
    rw [takeWhile_append_stop _ _ _ _ (natToStr_digits (i + 1)) (by decide)]
    rw [dropWhile_append_stop _ _ _ _ (natToStr_digits (i + 1)) (by decide)]
    rw [if_neg (by simp [List.isEmpty_iff, natToStr_ne_nil])]
    rw [lstrip_cons_ws ' ' _ (by decide), lstrip_cons_not_ws ':' _ (by decide)]
    dsimp only
    rw [if_pos ⟨rfl, rfl⟩]
    rw [if_neg he]
    rw [lstrip_cons_ws ' ' _ (by decide), hct, lstrip_cons_not_ws c _ hc, ← hct]
    simp [segIdStr]

theorem findClose_boundary (g3 rest : Str) (fl : Char)
    (hno : ∀ x ∈ g3, x ≠ ')') (htail : diglotTail rest = some fl) :
    ∀ acc, findClose acc (g3 ++ ')' :: rest) = some (acc.reverse ++ g3, fl) := by
  induction g3 with
  | nil =>
      intro acc
      rw [List.nil_append]
      unfold findClose
      rw [if_pos rfl, htail]
      simp
  | cons a t ih =>
      intro acc
      rw [List.cons_append]
      unfold findClose
      rw [if_neg (hno a (by simp))]
      rw [ih (fun x hx => hno x (by simp [hx])) (a :: acc)]
      simp

theorem findOpen_boundary (g2 rest : Str) (g3 : Str) (fl : Char)
    (hno : ∀ x ∈ g2, x ≠ '(') (hcl : findClose [] rest = some (g3, fl)) :
    ∀ acc, findOpen acc (g2 ++ '(' :: rest) = some (acc.reverse ++ g2, g3, fl) := by
  induction g2 with
  | nil =>
      intro acc
      rw [List.nil_append]
      unfold findOpen
      rw [if_pos rfl, hcl]
      simp
  | cons a t ih =>
      intro acc
      rw [List.cons_append]
      unfold findOpen
      rw [if_neg (hno a (by simp))]
      rw [ih (fun x hx => hno x (by simp [hx])) (a :: acc)]
      simp

theorem findArrow_boundary (g1 ys : Str) (g2 g3 : Str) (fl : Char)
    (hno : ∀ x ∈ g1, x ≠ '-') (hop : findOpen [] ys = some (g2, g3, fl)) :
    ∀ acc, findArrow acc (g1 ++ '-' :: '>' :: ys) =
      some (acc.reverse ++ g1, g2, g3, fl) := by
  induction g1 with
  | nil =>
      intro acc
      rw [List.nil_append]
      unfold findArrow
      rw [if_pos ⟨rfl, rfl⟩, hop]
      simp
  | cons a t ih =>
      intro acc
      have hna : a ≠ '-' := hno a (by simp)
      have iht := ih (fun x hx => hno x (by simp [hx]))
      cases t with
      | nil =>
          rw [List.cons_append, List.nil_append]
          unfold findArrow
          rw [if_neg (fun h => hna h.1)]
          have := iht (a :: acc)
          rw [List.nil_append] at this
          rw [this]
          simp
      | cons b t2 =>
          rw [List.cons_append, List.cons_append]
          unfold findArrow
          rw [if_neg (fun h => hna h.1)]
          have := iht (a :: acc)
          rw [List.cons_append] at this
          rw [this]
          simp

theorem parseDiglotEntry_renderEntry (e : DEntry) (hok : entryOk e = true) :
    parseDiglotEntry (renderEntry e) = some (e.eng, e.spa, e.form, e.flag) := by
  obtain ⟨heng, hspa, hform, hflag⟩ := entryOk_spec e hok
  have hengf := (fieldOk_spec e.eng heng).2
  have hspaf := (fieldOk_spec e.spa hspa).2
  have hformf := (fieldOk_spec e.form hform).2
  have hre : renderEntry e =
      e.eng ++ '-' :: '>' ::
        (e.spa ++ '(' :: (e.form ++ ')' :: ('(' :: e.flag :: [')']))) := by
    unfold renderEntry
    simp
  unfold parseDiglotEntry
  rw [hre]
  have htail : diglotTail ('(' :: e.flag :: [')']) = some e.flag := by
    unfold diglotTail
    rw [lstrip_cons_not_ws '(' _ (by decide)]
    rcases hflag with h | h <;> rw [h] <;> decide
  have hcl : findClose [] (e.form ++ ')' :: ('(' :: e.flag :: [')'])) =
      some (e.form, e.flag) := by
    have := findClose_boundary e.form ('(' :: e.flag :: [')']) e.flag
      (fun x hx => (hformf x hx).2.2.2.1) htail []
    simpa using this
  have hop : findOpen []
      (e.spa ++ '(' :: (e.form ++ ')' :: ('(' :: e.flag :: [')']))) =
      some (e.spa, e.form, e.flag) := by
    have := findOpen_boundary e.spa _ e.form e.flag
      (fun x hx => (hspaf x hx).2.2.1) hcl []
    simpa using this
  have := findArrow_boundary e.eng _ e.spa e.form e.flag
    (fun x hx => (hengf x hx).1) hop []
  simpa using this

theorem strippedNE_intro (c : Char) (t : Str) (c2 : Char) (t2 : Str) (s : Str)
    (h : s = c :: t) (hc : isWsChar c = false)
    (h2 : s.reverse = c2 :: t2) (hc2 : isWsChar c2 = false)
    (hlb : noLB s = true) : strippedNE s = true := by
  subst h
  unfold strippedNE
  rw [h2]
  simp [hc, hc2, hlb]

theorem renderEntry_mem (e : DEntry) (c : Char) (hc : c ∈ renderEntry e) :
    c ∈ e.eng ∨ c ∈ e.spa ∨ c ∈ e.form ∨ c = e.flag ∨
      c = '-' ∨ c = '>' ∨ c = '(' ∨ c = ')' := by
  unfold renderEntry at hc
  simp only [List.mem_append, List.mem_cons, List.mem_singleton,
    List.not_mem_nil, or_false] at hc
  tauto

theorem noLB_renderEntry (e : DEntry) (hok : entryOk e = true) :
    noLB (renderEntry e) = true := by
  obtain ⟨heng, hspa, hform, hflag⟩ := entryOk_spec e hok
  have h1 := (strippedNE_spec _ (fieldOk_spec _ heng).1).2.2.1
  have h2 := (strippedNE_spec _ (fieldOk_spec _ hspa).1).2.2.1
  have h3 := (strippedNE_spec _ (fieldOk_spec _ hform).1).2.2.1
  unfold noLB at h1 h2 h3 ⊢
  rw [List.all_eq_true] at h1 h2 h3 ⊢
  intro c hc
  rcases renderEntry_mem e c hc with h | h | h | h | h | h | h | h
  · exact h1 c h
  · exact h2 c h
  · exact h3 c h
  · subst h
    rcases hflag with hf | hf <;> rw [hf] <;> decide
  all_goals subst h
  all_goals decide

theorem renderEntry_no_pipe (e : DEntry) (hok : entryOk e = true) :
    ∀ c ∈ renderEntry e, c ≠ '|' := by
  obtain ⟨heng, hspa, hform, hflag⟩ := entryOk_spec e hok
  intro c hc
  rcases renderEntry_mem e c hc with h | h | h | h | h | h | h | h
  · exact ((fieldOk_spec _ heng).2 c h).2.2.2.2
  · exact ((fieldOk_spec _ hspa).2 c h).2.2.2.2
  · exact ((fieldOk_spec _ hform).2 c h).2.2.2.2
  · subst h
    rcases hflag with hf | hf <;> rw [hf] <;> decide
  all_goals subst h
  all_goals decide

theorem strippedNE_renderEntry (e : DEntry) (hok : entryOk e = true) :
    strippedNE (renderEntry e) = true := by
  obtain ⟨X, hX⟩ := renderEntry_decomp e
  obtain ⟨t2, ht2⟩ := renderEntry_rev e
  have heng := (entryOk_spec e hok).1
  obtain ⟨_, _, _, ⟨c, t, hct, hcw⟩, _⟩ :=
    strippedNE_spec e.eng (fieldOk_spec e.eng heng).1
  refine strippedNE_intro c (t ++ X) ')' t2 _ ?_ hcw ht2 (by decide)
    (noLB_renderEntry e hok)
  rw [hX, hct]
  simp

theorem strip_id_renderEntry (e : DEntry) (hok : entryOk e = true) :
    strip (renderEntry e) = renderEntry e :=
  (strippedNE_spec _ (strippedNE_renderEntry e hok)).2.1

theorem splitChar_ne_nil (c : Char) (l : Str) : splitChar c l ≠ [] := by
  cases l with
  | nil => simp [splitChar]
  | cons x xs =>
      unfold splitChar
      by_cases h : x = c
      · rw [if_pos h]
        simp
      · rw [if_neg h]
        cases hs : splitChar c xs with
        | nil => simp
        | cons hh tt => simp

theorem splitChar_no_sep (c : Char) (l : Str) (h : ∀ x ∈ l, x ≠ c) :
    splitChar c l = [l] := by
  induction l with
  | nil => rfl
  | cons a t ih =>
      unfold splitChar
      rw [if_neg (h a (by simp))]
      rw [ih (fun x hx => h x (by simp [hx]))]

theorem splitChar_append_boundary (c : Char) (xs ys : Str)
    (h : ∀ x ∈ xs, x ≠ c) :
    splitChar c (xs ++ c :: ys) = xs :: splitChar c ys := by
  induction xs with
  | nil =>
      rw [List.nil_append]
      conv_lhs => unfold splitChar
      rw [if_pos rfl]
  | cons a t ih =>
      rw [List.cons_append]
      conv_lhs => unfold splitChar
      rw [if_neg (h a (by simp))]
      rw [ih (fun x hx => h x (by simp [hx]))]

theorem strip_cons_ws (c : Char) (l : Str) (hc : isWsChar c = true) :
    strip (c :: l) = strip l := by
  unfold strip
  rw [lstrip_cons_ws c l hc]

theorem splitChar_renderEntries_strip (es : List DEntry) :
    es ≠ [] → (∀ e ∈ es, entryOk e = true) →
    ∀ p ∈ splitChar '|' (renderEntries es), ∃ e ∈ es, strip p = renderEntry e := by
  induction es with
  | nil => intro h; exact absurd rfl h
  | cons e rest ih =>
      intro _ hok p hp
      cases rest with
      | nil =>
          rw [show renderEntries [e] = renderEntry e from by
            unfold renderEntries; simp [joinSep]] at hp
          rw [splitChar_no_sep '|' _ (renderEntry_no_pipe e (hok e (by simp)))] at hp
          simp only [List.mem_singleton] at hp
          subst hp
          exact ⟨e, by simp, strip_id_renderEntry e (hok e (by simp))⟩
      | cons e2 rest2 =>
          have hdec : renderEntries (e :: e2 :: rest2) =
              (renderEntry e ++ [' ']) ++
                '|' :: (' ' :: renderEntries (e2 :: rest2)) := by
            unfold renderEntries
            rw [List.map_cons, List.map_cons, joinSep]
            simp [lit]
          rw [hdec] at hp
          rw [splitChar_append_boundary '|' _ _ ?hpipe] at hp
          case hpipe =>
            intro x hx
            rw [List.mem_append] at hx
            rcases hx with hx | hx
            · exact renderEntry_no_pipe e (hok e (by simp)) x hx
            · simp only [List.mem_singleton] at hx
              subst hx
              decide
          have hne2 : (e2 :: rest2) ≠ ([] : List DEntry) := by simp
          have hok2 : ∀ x ∈ e2 :: rest2, entryOk x = true :=
            fun x hx => hok x (by simp [List.mem_cons] at hx ⊢; tauto)
          rcases List.mem_cons.mp hp with rfl | hp2
          · refine ⟨e, by simp, ?_⟩
            unfold strip
            rw [lstrip_append_of_strippedNE _ _
              (strippedNE_renderEntry e (hok e (by simp)))]
            rw [rstrip_append_ws _ ' ' (by decide)]
            exact rstrip_id_of_strippedNE _ (strippedNE_renderEntry e (hok e (by simp)))
          · cases hsp : splitChar '|' (renderEntries (e2 :: rest2)) with
            | nil => exact absurd hsp (splitChar_ne_nil _ _)
            | cons h0 t0 =>
                have hstep : splitChar '|' (' ' :: renderEntries (e2 :: rest2)) =
                    (' ' :: h0) :: t0 := by
                  unfold splitChar
                  rw [if_neg (by decide), hsp]
                rw [hstep] at hp2
                rcases List.mem_cons.mp hp2 with rfl | hp3
                · obtain ⟨e1, he1, hse⟩ := ih hne2 hok2 h0 (by rw [hsp]; simp)
                  exact ⟨e1, by simp [he1],
                    by rw [strip_cons_ws ' ' h0 (by decide), hse]⟩
                · obtain ⟨e1, he1, hse⟩ := ih hne2 hok2 p (by rw [hsp]; simp [hp3])
                  exact ⟨e1, by simp [he1], hse⟩

theorem diglotPartErrs_renderEntry (sid entriesFull : Str) (idx : Nat) (p : Str)
    (e : DEntry) (hok : entryOk e = true) (hpe : strip p = renderEntry e) :
    diglotPartErrs sid entriesFull idx p = [] := by
  obtain ⟨heng, hspa, hform, hflag⟩ := entryOk_spec e hok
  have hne : (renderEntry e).isEmpty = false := by
    obtain ⟨X, hX⟩ := renderEntry_decomp e
    obtain ⟨_, _, _, ⟨c, t, hct, _⟩, _⟩ :=
      strippedNE_spec e.eng (fieldOk_spec e.eng heng).1
    rw [hX, hct]
    rfl
  have hseng : (strip e.eng).isEmpty = false := by
    rw [(strippedNE_spec _ (fieldOk_spec _ heng).1).2.1]
    obtain ⟨_, _, _, ⟨c, t, hct, _⟩, _⟩ :=
      strippedNE_spec e.eng (fieldOk_spec e.eng heng).1
    rw [hct]
    rfl
  have hsspa : (strip e.spa).isEmpty = false := by
    rw [(strippedNE_spec _ (fieldOk_spec _ hspa).1).2.1]
    obtain ⟨_, _, _, ⟨c, t, hct, _⟩, _⟩ :=
      strippedNE_spec e.spa (fieldOk_spec _ hspa).1
    rw [hct]
    rfl
  have hsform : (strip e.form).isEmpty = false := by
    rw [(strippedNE_spec _ (fieldOk_spec _ hform).1).2.1]
    obtain ⟨_, _, _, ⟨c, t, hct, _⟩, _⟩ :=
      strippedNE_spec e.form (fieldOk_spec _ hform).1
    rw [hct]
    rfl
  simp only [diglotPartErrs, hpe, hne, Bool.false_eq_true, if_false]
  rw [parseDiglotEntry_renderEntry e hok]
  simp [hseng, hsspa, hsform, hflag]

theorem diglotPartsGo_renderEntries (sid entriesFull : Str) (es : List DEntry)
    (hok : ∀ e ∈ es, entryOk e = true) :
    ∀ (idx : Nat) (parts : List Str),
      (∀ p ∈ parts, ∃ e ∈ es, strip p = renderEntry e) →
      diglotPartsGo sid entriesFull idx parts = [] := by
  intro idx parts
  induction parts generalizing idx with
  | nil => intro _; rfl
  | cons p rest ih =>
      intro hmem
      obtain ⟨e, he, hpe⟩ := hmem p (by simp)
      unfold diglotPartsGo
      rw [diglotPartErrs_renderEntry sid entriesFull idx p e (hok e he) hpe,
        List.nil_append]
      exact ih (idx + 1) (fun q hq => hmem q (by simp [hq]))

theorem diglotEntriesErrs_renderEntries (sid : Str) (es : List DEntry)
    (hne : es ≠ []) (hok : ∀ e ∈ es, entryOk e = true) :
    diglotEntriesErrs sid (renderEntries es) = [] := by
  unfold diglotEntriesErrs
  exact diglotPartsGo_renderEntries sid _ es hok 0 _
    (splitChar_renderEntries_strip es hne hok)

theorem segIds_succ (k : Nat) : segIds (k + 1) = segIds k ++ [segIdStr (k + 1)] := by
  unfold segIds
  rw [List.range_succ, List.map_append]
  rfl

theorem segIds_length (k : Nat) : (segIds k).length = k := by
  simp [segIds]

theorem segIdStr_not_mem_segIds (k : Nat) : segIdStr (k + 1) ∉ segIds k := by
  unfold segIds
  intro h
  simp only [List.mem_map, List.mem_range] at h
  obtain ⟨j, hj, hEq⟩ := h
  have := segIdStr_inj hEq
  omega

theorem segIdStr_mem_segIds (n k : Nat) (h1 : 1 ≤ n) (h2 : n ≤ k) :
    segIdStr n ∈ segIds k := by
  unfold segIds
  simp only [List.mem_map, List.mem_range]
  exact ⟨n - 1, by omega, by rw [show n - 1 + 1 = n from by omega]⟩

theorem phase2Go_segLines (segs : List SegSpec)
    (hok : ∀ s ∈ segs, segOk s = true) :
    ∀ (j : Nat) (E : List Str),
      phase2Go j ⟨E, segIds j, segIds j⟩ (mapIdxGo segLine j segs) =
        ⟨E, segIds (j + segs.length), segIds (j + segs.length)⟩ := by
  induction segs with
  | nil =>
      intro j E
      rw [show mapIdxGo segLine j [] = [] from rfl]
      rw [show phase2Go j ⟨E, segIds j, segIds j⟩ [] =
        ⟨E, segIds j, segIds j⟩ from rfl]
      rw [show j + [].length = j from by simp]
  | cons s rest ih =>
      intro j E
      have hcne : s.content.isEmpty = false := by
        have := (segOk_spec s (hok s (by simp))).1
        cases hc : s.content with
        | nil => exact absurd hc this
        | cons a b => rfl
      rw [show mapIdxGo segLine j (s :: rest) =
        segLine j s :: mapIdxGo segLine (j + 1) rest from rfl]
      rw [phase2Go_cons_some j _ _ _ _ _ (parseSegLine_segLine j s)]
      dsimp only
      rw [hcne]
      rw [if_neg (by intro h; cases h)]
      rw [if_neg (segIdStr_not_mem_segIds j)]
      rw [List.append_nil, List.append_nil]
      rw [show setInsert (segIds j) (segIdStr (j + 1)) =
        segIds j ++ [segIdStr (j + 1)] from by
          unfold setInsert
          rw [if_neg (segIdStr_not_mem_segIds j)]]
      rw [← segIds_succ j]
      rw [ih (fun s2 hs2 => hok s2 (by simp [hs2])) (j + 1) E]
      rw [show j + 1 + rest.length = j + (s :: rest).length from by simp; omega]

theorem phase2Content_segLines (segs : List SegSpec)
    (hok : ∀ s ∈ segs, segOk s = true) :
    phase2Content (mapIdxGo segLine 0 segs) =
      ([], segIds segs.length, segIds segs.length) := by
  unfold phase2Content
  rw [show (⟨[], [], []⟩ : P2State) = ⟨[], segIds 0, segIds 0⟩ from rfl]
  rw [phase2Go_segLines segs hok 0 []]
  dsimp only
  rw [show (0 + segs.length) = segs.length from by omega]
  rw [if_pos (by rw [segIds_length]; rfl)]
  rw [List.append_nil]

theorem phase2_renderLines (gb : GoodBlock) (hok : goodBlockOk gb = true) :
    phase2 (renderLines gb) =
      ([], segIds gb.segs.length, segIds gb.segs.length) := by
  obtain ⟨_, _, _, _, hsne, hsok, _⟩ := goodBlockOk_spec gb hok
  unfold phase2
  rw [renderLines_gsc_p2 gb hok]
  dsimp only
  rw [if_neg ?hne]
  case hne =>
    cases hs : gb.segs with
    | nil => exact absurd hs hsne
    | cons s rest => simp [mapIdxGo]
  exact phase2Content_segLines gb.segs hsok

theorem strip_isEmpty_false_of_strippedNE (s : Str) (h : strippedNE s = true) :
    (strip s).isEmpty = false := by
  obtain ⟨hne, hs, _, _, _⟩ := strippedNE_spec s h
  rw [hs]
  cases hs0 : s with
  | nil => exact absurd hs0 hne
  | cons a b => rfl

theorem phase3Go_alignLines (k : Nat) (segs : List SegSpec)
    (hok : ∀ s ∈ segs, segOk s = true) :
    ∀ j, j + segs.length ≤ k →
      phase3Go (segIds k) j (mapIdxGo alignLine j segs) = [] := by
  induction segs with
  | nil => intro j h; rfl
  | cons s rest ih =>
      intro j h
      simp only [List.length_cons] at h
      obtain ⟨_, _, h1, h2, _, _⟩ := segOk_spec s (hok s (by simp))
      rw [show mapIdxGo alignLine j (s :: rest) =
        alignLine j s :: mapIdxGo alignLine (j + 1) rest from rfl]
      conv_lhs => rw [phase3Go]
      rw [parsePhraseAlign_alignLine j s h1 h2]
      dsimp only
      rw [if_pos (segIdStr_mem_segIds (j + 1) k (by omega) (by omega))]
      rw [if_neg (by
        rw [strip_isEmpty_false_of_strippedNE s.span1 (spanOk_spec _ h1).1]
        simp)]
      rw [if_neg (by
        rw [strip_isEmpty_false_of_strippedNE s.span2 (spanOk_spec _ h2).1]
        simp)]
      rw [ih (fun s2 hs2 => hok s2 (by simp [hs2])) (j + 1) (by omega)]
      rfl

theorem phase3_renderLines (gb : GoodBlock) (hok : goodBlockOk gb = true) :
    phase3 (renderLines gb) (segIds gb.segs.length) = [] := by
  obtain ⟨_, _, _, _, hsne, hsok, _⟩ := goodBlockOk_spec gb hok
  unfold phase3
  rw [renderLines_gsc_p3 gb hok]
  dsimp only
  rw [if_neg ?hne3]
  case hne3 =>
    cases hs : gb.segs with
    | nil => exact absurd hs hsne
    | cons s rest => simp [mapIdxGo]
  rw [if_pos (by rw [mapIdxGo_length, segIds_length])]
  rw [phase3Go_alignLines gb.segs.length gb.segs hsok 0 (by omega)]
  rfl

theorem phase4Go_simslLines (k : Nat) (segs : List SegSpec)
    (hok : ∀ s ∈ segs, segOk s = true) :
    ∀ j, j + segs.length ≤ k →
      phase4Go (segIds k) j (segIds j) (mapIdxGo simslLine j segs) =
        ([], segIds (j + segs.length)) := by
  induction segs with
  | nil =>
      intro j h
      rw [show mapIdxGo simslLine j [] = [] from rfl]
      rw [show phase4Go (segIds k) j (segIds j) [] = ([], segIds j) from rfl]
      rw [show j + [].length = j from by simp]
  | cons s rest ih =>
      intro j h
      simp only [List.length_cons] at h
      obtain ⟨_, _, _, _, hlt, _⟩ := segOk_spec s (hok s (by simp))
      rw [show mapIdxGo simslLine j (s :: rest) =
        simslLine j s :: mapIdxGo simslLine (j + 1) rest from rfl]
      conv_lhs => rw [phase4Go]
      rw [parseLemmaLine_simslLine j s hlt]
      dsimp only
      rw [if_pos (segIdStr_mem_segIds (j + 1) k (by omega) (by omega))]
      rw [if_neg (segIdStr_not_mem_segIds j)]
      rw [show setInsert (segIds j) (segIdStr (j + 1)) =
        segIds j ++ [segIdStr (j + 1)] from by
          unfold setInsert
          rw [if_neg (segIdStr_not_mem_segIds j)]]
      rw [← segIds_succ j]
      rw [ih (fun s2 hs2 => hok s2 (by simp [hs2])) (j + 1) (by omega)]
      rw [show j + 1 + rest.length = j + (s :: rest).length from by simp; omega]
      simp

theorem phase4_renderLines (gb : GoodBlock) (hok : goodBlockOk gb = true) :
    phase4 (renderLines gb) (segIds gb.segs.length) = [] := by
  obtain ⟨_, _, _, _, hsne, hsok, _⟩ := goodBlockOk_spec gb hok
  unfold phase4
  rw [renderLines_gsc_p4 gb hok]
  dsimp only
  rw [if_neg ?hne4]
  case hne4 =>
    cases hs : gb.segs with
    | nil => exact absurd hs hsne
    | cons s rest => simp [mapIdxGo]
  have h40 := phase4Go_simslLines gb.segs.length gb.segs hsok 0 (by omega)
  rw [show segIds 0 = ([] : List Str) from rfl, Nat.zero_add] at h40
  rw [h40]
  dsimp only
  rw [if_pos (by rw [mapIdxGo_length, segIds_length])]
  rw [List.nil_append, List.nil_append]
  rw [show (segIds gb.segs.length).filter
      (fun sid => !(sid ∈ segIds gb.segs.length : Bool)) = [] from ?hfil]
  case hfil =>
    rw [List.filter_eq_nil]
    intro a ha
    simp [ha]
  rfl

theorem phase5_renderLines (gb : GoodBlock) (hok : goodBlockOk gb = true) :
    phase5 (renderLines gb) = [] := by
  unfold phase5
  rw [renderLines_gsc_p5 gb hok]
  dsimp only
  rw [if_neg (by simp)]

theorem strip_id_renderEntries (es : List DEntry) (hne : es ≠ [])
    (hok : ∀ e ∈ es, entryOk e = true) :
    strip (renderEntries es) = renderEntries es := by
  obtain ⟨c, t, hct, hc⟩ := renderEntries_head es hne hok
  obtain ⟨t2, ht2⟩ := renderEntries_rev es hne
  exact strip_id_of_ends _ c t hct hc ')' t2 ht2 (by decide)

theorem phase6Go_diglotLines (k : Nat) (segs : List SegSpec)
    (hok : ∀ s ∈ segs, segOk s = true) :
    ∀ j, j + segs.length ≤ k →
      phase6Go (segIds k) j (segIds j) (mapIdxGo diglotLine j segs) =
        ([], segIds (j + segs.length)) := by
  induction segs with
  | nil =>
      intro j h
      rw [show mapIdxGo diglotLine j [] = [] from rfl]
      rw [show phase6Go (segIds k) j (segIds j) [] = ([], segIds j) from rfl]
      rw [show j + [].length = j from by simp]
  | cons s rest ih =>
      intro j h
      simp only [List.length_cons] at h
      obtain ⟨_, _, _, _, _, heok⟩ := segOk_spec s (hok s (by simp))
      rw [show mapIdxGo diglotLine j (s :: rest) =
        diglotLine j s :: mapIdxGo diglotLine (j + 1) rest from rfl]
      have hp := parseLemmaLine_diglotLine j s heok
      by_cases hee : s.entries.isEmpty = true
      · rw [if_pos hee] at hp
        conv_lhs => rw [phase6Go]
        rw [hp]
        dsimp only
        rw [if_pos (segIdStr_mem_segIds (j + 1) k (by omega) (by omega))]
        rw [if_neg (segIdStr_not_mem_segIds j)]
        rw [if_pos (by rfl)]
        rw [show setInsert (segIds j) (segIdStr (j + 1)) =
          segIds j ++ [segIdStr (j + 1)] from by
            unfold setInsert
            rw [if_neg (segIdStr_not_mem_segIds j)]]
        rw [← segIds_succ j]
        rw [ih (fun s2 hs2 => hok s2 (by simp [hs2])) (j + 1) (by omega)]
        rw [show j + 1 + rest.length = j + (s :: rest).length from by simp; omega]
        simp
      · have hene : s.entries ≠ [] := fun h0 => hee (by rw [h0]; rfl)
        rw [if_neg hee] at hp
        conv_lhs => rw [phase6Go]
        rw [hp]
        dsimp only
        rw [if_pos (segIdStr_mem_segIds (j + 1) k (by omega) (by omega))]
        rw [if_neg (segIdStr_not_mem_segIds j)]
        rw [strip_id_renderEntries s.entries hene heok]
        rw [if_neg ?hnee]
        case hnee =>
          obtain ⟨c, t0, hct, _⟩ := renderEntries_head s.entries hene heok
          rw [hct]
          simp
        rw [diglotEntriesErrs_renderEntries (segIdStr (j + 1)) s.entries hene heok]
        rw [show setInsert (segIds j) (segIdStr (j + 1)) =
          segIds j ++ [segIdStr (j + 1)] from by
            unfold setInsert
            rw [if_neg (segIdStr_not_mem_segIds j)]]
        rw [← segIds_succ j]
        rw [ih (fun s2 hs2 => hok s2 (by simp [hs2])) (j + 1) (by omega)]
        rw [show j + 1 + rest.length = j + (s :: rest).length from by simp; omega]
        simp

theorem phase6_renderLines (gb : GoodBlock) (hok : goodBlockOk gb = true) :
    phase6 (renderLines gb) (segIds gb.segs.length) = [] := by
  obtain ⟨_, _, _, _, hsne, hsok, _⟩ := goodBlockOk_spec gb hok
  unfold phase6
  rw [renderLines_gsc_p6 gb hok]
  dsimp only
  rw [if_neg ?hne6]
  case hne6 =>
    cases hs : gb.segs with
    | nil => exact absurd hs hsne
    | cons s rest => simp [mapIdxGo]
  have h60 := phase6Go_diglotLines gb.segs.length gb.segs hsok 0 (by omega)
  rw [show segIds 0 = ([] : List Str) from rfl, Nat.zero_add] at h60
  rw [h60]
  dsimp only
  rw [List.nil_append]
  rw [show (segIds gb.segs.length).filter
      (fun sid => !(sid ∈ segIds gb.segs.length : Bool)) = [] from ?hfil6]
  case hfil6 =>
    rw [List.filter_eq_nil]
    intro a ha
    simp [ha]
  rfl

theorem phase7_renderLines (gb : GoodBlock) (hok : goodBlockOk gb = true)
    (idset : List Str) :
    phase7 (renderLines gb) idset = [] := by
  obtain ⟨_, _, _, _, _, _, _, _, h9⟩ := renderLines_markerHits gb hok
  unfold phase7
  rw [markerHits] at h9
  rw [show markerHits (renderLines gb) mLOCKED_PHRASE =
    markerHitsGo (startsWithMarker mLOCKED_PHRASE) 0 (renderLines gb) from rfl] at *
  rw [h9]
  simp

theorem sectionPhases_renderLines (gb : GoodBlock) (hok : goodBlockOk gb = true) :
    sectionPhases (renderLines gb) = [] := by
  unfold sectionPhases
  rw [phase2_renderLines gb hok]
  dsimp only
  rw [phase3_renderLines gb hok, phase4_renderLines gb hok,
    phase5_renderLines gb hok, phase6_renderLines gb hok,
    phase7_renderLines gb hok]
  rfl

theorem noLB_mem (l : Str) (h : noLB l = true) :
    ∀ c ∈ l, isLineBreakChar c = false := by
  unfold noLB at h
  rw [List.all_eq_true] at h
  intro c hc
  have := h c hc
  simpa using this

theorem noLB_of_forall (l : Str) (h : ∀ c ∈ l, isLineBreakChar c = false) :
    noLB l = true := by
  unfold noLB
  rw [List.all_eq_true]
  intro c hc
  simp [h c hc]

theorem noLB_append (a b : Str) : noLB (a ++ b) = (noLB a && noLB b) := by
  simp [noLB, List.all_append]

theorem noLB_natToStr (n : Nat) : noLB (natToStr n) = true :=
  noLB_of_forall _ (fun c hc => lb_not_digit c (natToStr_digits n c hc))

theorem noLB_segIdStr (n : Nat) : noLB (segIdStr n) = true := by
  apply noLB_of_forall
  intro c hc
  rcases List.mem_cons.mp hc with h | h
  · subst h
    decide
  · exact noLB_mem _ (noLB_natToStr n) c h

theorem noLB_renderEntries (es : List DEntry)
    (hok : ∀ e ∈ es, entryOk e = true) :
    noLB (renderEntries es) = true := by
  induction es with
  | nil => rfl
  | cons e rest ih =>
      cases rest with
      | nil =>
          rw [show renderEntries [e] = renderEntry e from by
            unfold renderEntries; simp [joinSep]]
          exact noLB_renderEntry e (hok e (by simp))
      | cons e2 rest2 =>
          have hdec : renderEntries (e :: e2 :: rest2) =
              (renderEntry e ++ [' ']) ++
                '|' :: (' ' :: renderEntries (e2 :: rest2)) := by
            unfold renderEntries
            rw [List.map_cons, List.map_cons, joinSep]
            simp [lit]
          rw [hdec]
          apply noLB_of_forall
          intro c hc
          have hc2 : c ∈ renderEntry e ∨ c = ' ' ∨ c = '|' ∨
              c ∈ renderEntries (e2 :: rest2) := by
            simp only [List.mem_append, List.mem_cons, List.mem_singleton,
              List.not_mem_nil, or_false] at hc
            tauto
          rcases hc2 with h | h | h | h
          · exact noLB_mem _ (noLB_renderEntry e (hok e (by simp))) c h
          · subst h
            decide
          · subst h
            decide
          · exact noLB_mem _
              (ih (fun x hx => hok x (by
                simp only [List.mem_cons] at hx ⊢
                tauto))) c h

theorem segLine_ne_noLB (i : Nat) (s : SegSpec) (hs : segOk s = true) :
    segLine i s ≠ [] ∧ noLB (segLine i s) = true := by
  obtain ⟨_, hclb, _, _, _, _⟩ := segOk_spec s hs
  constructor
  · unfold segLine segIdStr
    simp
  · unfold segLine
    simp only [noLB_append]
    rw [noLB_segIdStr (i + 1), hclb]
    decide

theorem alignLine_ne_noLB (i : Nat) (s : SegSpec) (hs : segOk s = true) :
    alignLine i s ≠ [] ∧ noLB (alignLine i s) = true := by
  obtain ⟨_, _, h1, h2, _, _⟩ := segOk_spec s hs
  constructor
  · unfold alignLine segIdStr
    simp
  · unfold alignLine
    simp only [noLB_append]
    rw [noLB_segIdStr (i + 1),
      (strippedNE_spec _ (spanOk_spec _ h1).1).2.2.1,
      (strippedNE_spec _ (spanOk_spec _ h2).1).2.2.1]
    decide

theorem simslLine_ne_noLB (i : Nat) (s : SegSpec) (hs : segOk s = true) :
    simslLine i s ≠ [] ∧ noLB (simslLine i s) = true := by
  obtain ⟨_, _, _, _, hlt, _⟩ := segOk_spec s hs
  constructor
  · unfold simslLine segIdStr
    simp
  · unfold simslLine
    simp only [noLB_append]
    rw [noLB_segIdStr (i + 1), (strippedNE_spec _ hlt).2.2.1]
    decide

theorem diglotLine_ne_noLB (i : Nat) (s : SegSpec) (hs : segOk s = true) :
    diglotLine i s ≠ [] ∧ noLB (diglotLine i s) = true := by
  obtain ⟨_, _, _, _, _, heok⟩ := segOk_spec s hs
  constructor
  · unfold diglotLine segIdStr
    simp
  · unfold diglotLine
    by_cases hee : s.entries.isEmpty = true
    · rw [if_pos hee]
      simp only [noLB_append]
      rw [noLB_segIdStr (i + 1)]
      decide
    · rw [if_neg hee]
      rw [show ' ' :: renderEntries s.entries =
        [' '] ++ renderEntries s.entries from rfl]
      simp only [noLB_append]
      rw [noLB_segIdStr (i + 1), noLB_renderEntries s.entries heok]
      decide

theorem renderLines_ne_noLB (gb : GoodBlock) (hok : goodBlockOk gb = true) :
    ∀ l ∈ renderLines gb, l ≠ [] ∧ noLB l = true := by
  obtain ⟨hadvs, hsims, hsime, hadvsl, _, hsok, _⟩ := goodBlockOk_spec gb hok
  intro l hl
  unfold renderLines at hl
  have hseg := mapIdxGo_mem (Q := fun l => l ≠ [] ∧ noLB l = true) segLine gb.segs
    (fun j s hs => segLine_ne_noLB j s (hsok s hs)) 0
  have hal := mapIdxGo_mem (Q := fun l => l ≠ [] ∧ noLB l = true) alignLine gb.segs
    (fun j s hs => alignLine_ne_noLB j s (hsok s hs)) 0
  have hsl := mapIdxGo_mem (Q := fun l => l ≠ [] ∧ noLB l = true) simslLine gb.segs
    (fun j s hs => simslLine_ne_noLB j s (hsok s hs)) 0
  have hdl := mapIdxGo_mem (Q := fun l => l ≠ [] ∧ noLB l = true) diglotLine gb.segs
    (fun j s hs => diglotLine_ne_noLB j s (hsok s hs)) 0
  rw [List.mem_append] at hl
  rcases hl with hl | h
  swap
  · exact hdl l h
  rw [List.mem_append] at hl
  rcases hl with hl | h
  swap
  · rcases List.mem_cons.mp h with h2 | h2
    · subst h2
      refine ⟨by simp [mAdvSL], ?_⟩
      simp only [noLB_append]
      rw [(strippedNE_spec _ hadvsl).2.2.1]
      decide
    · simp only [List.mem_singleton] at h2
      subst h2
      exact ⟨by decide, by decide⟩
  rw [List.mem_append] at hl
  rcases hl with hl | h
  swap
  · exact hsl l h
  rw [List.mem_append] at hl
  rcases hl with hl | h
  swap
  · simp only [List.mem_singleton] at h
    subst h
    exact ⟨by decide, by decide⟩
  rw [List.mem_append] at hl
  rcases hl with hl | h
  swap
  · exact hal l h
  rw [List.mem_append] at hl
  rcases hl with hl | h
  swap
  · simp only [List.mem_singleton] at h
    subst h
    exact ⟨by decide, by decide⟩
  rw [List.mem_append] at hl
  rcases hl with hl | h
  swap
  · exact hseg l h
  rcases List.mem_cons.mp hl with h | hl
  · subst h
    refine ⟨by simp [mAdvS], ?_⟩
    simp only [noLB_append]
    rw [(strippedNE_spec _ hadvs).2.2.1]
    decide
  rcases List.mem_cons.mp hl with h | hl
  · subst h
    refine ⟨by simp [mSimS], ?_⟩
    simp only [noLB_append]
    rw [(strippedNE_spec _ hsims).2.2.1]
    decide
  rcases List.mem_cons.mp hl with h | hl
  · subst h
    refine ⟨by simp [mSimE], ?_⟩
    simp only [noLB_append]
    rw [(strippedNE_spec _ hsime).2.2.1]
    decide
  simp only [List.mem_singleton] at hl
  subst hl
  exact ⟨by decide, by decide⟩

theorem lb_ne_cr (a : Char) (h : isLineBreakChar a = false) : a ≠ '\r' := by
  intro h0
  subst h0
  exact absurd h (by decide)

theorem splitlinesGo_noLB (l : Str) (h : ∀ c ∈ l, isLineBreakChar c = false) :
    ∀ acc, splitlinesGo acc l = [acc.reverse ++ l] := by
  induction l with
  | nil =>
      intro acc
      simp [splitlinesGo]
  | cons a t ih =>
      intro acc
      have ha : isLineBreakChar a = false := h a (by simp)
      cases t with
      | nil =>
          unfold splitlinesGo
          rw [if_neg (by simp [ha])]
          simp
      | cons b t2 =>
          unfold splitlinesGo
          rw [if_neg (fun hc => (lb_ne_cr a ha) hc.1)]
          rw [if_neg (by simp [ha])]
          rw [ih (fun c hc => h c (by simp [hc])) (a :: acc)]
          simp

theorem splitlinesGo_line_break (l : Str)
    (h : ∀ c ∈ l, isLineBreakChar c = false) :
    ∀ (r0 : Char) (rest : Str) (acc : Str),
      splitlinesGo acc (l ++ '\n' :: r0 :: rest) =
        (acc.reverse ++ l) :: splitlinesGo [] (r0 :: rest) := by
  induction l with
  | nil =>
      intro r0 rest acc
      rw [List.nil_append]
      conv_lhs => unfold splitlinesGo
      rw [if_neg (fun hc => absurd hc.1 (by decide))]
      rw [if_pos (by decide)]
      simp
  | cons a t ih =>
      intro r0 rest acc
      have ha : isLineBreakChar a = false := h a (by simp)
      rw [List.cons_append]
      cases ht : t ++ '\n' :: r0 :: rest with
      | nil => exact absurd ht (by simp)
      | cons b t2 =>
          conv_lhs => unfold splitlinesGo
          rw [if_neg (fun hc => (lb_ne_cr a ha) hc.1)]
          rw [if_neg (by simp [ha])]
          rw [← ht]
          rw [ih (fun c hc => h c (by simp [hc])) r0 rest (a :: acc)]
          simp

theorem joinSep_nl_cons2 (x y : Str) (t : List Str) :
    joinSep ['\n'] (x :: y :: t) = x ++ '\n' :: joinSep ['\n'] (y :: t) := by
  rw [joinSep]
  simp

theorem joinSep_cons_ne (x : Str) (xs : List Str) (hx : x ≠ []) :
    ∃ c t, joinSep ['\n'] (x :: xs) = c :: t := by
  cases hx0 : x with
  | nil => exact absurd hx0 hx
  | cons c xt =>
      cases xs with
      | nil =>
          refine ⟨c, xt, ?_⟩
          rw [show joinSep ['\n'] [c :: xt] = c :: xt from by rw [joinSep]]
      | cons y t =>
          refine ⟨c, xt ++ '\n' :: joinSep ['\n'] (y :: t), ?_⟩
          rw [joinSep_nl_cons2]
          simp

theorem splitlinesGo_joinSep (lines : List Str)
    (hargs : ∀ l ∈ lines, l ≠ [] ∧ noLB l = true) :
    ∀ (l0 : Str), noLB l0 = true →
      splitlinesGo [] (joinSep ['\n'] (l0 :: lines)) = l0 :: lines := by
  induction lines with
  | nil =>
      intro l0 h0
      rw [show joinSep ['\n'] [l0] = l0 from by rw [joinSep]]
      rw [splitlinesGo_noLB l0 (noLB_mem l0 h0) []]
      simp
  | cons l1 rest ih =>
      intro l0 h0
      rw [joinSep_nl_cons2]
      obtain ⟨h1ne, h1lb⟩ := hargs l1 (by simp)
      obtain ⟨c, ct, hct⟩ := joinSep_cons_ne l1 rest h1ne
      rw [hct]
      rw [splitlinesGo_line_break l0 (noLB_mem l0 h0) c ct []]
      rw [← hct]
      rw [ih (fun l hl => hargs l (by simp [hl])) l1 h1lb]
      simp

theorem splitlines_renderBlock (gb : GoodBlock) (hok : goodBlockOk gb = true) :
    splitlines (renderBlock gb) = renderLines gb := by
  have hfacts := renderLines_ne_noLB gb hok
  cases hr : renderLines gb with
  | nil =>
      exact absurd hr (by unfold renderLines; simp)
  | cons l0 rest =>
      unfold renderBlock splitlines
      rw [hr]
      rw [if_neg ?hne]
      case hne =>
        obtain ⟨h0ne, _⟩ := hfacts l0 (by rw [hr]; simp)
        obtain ⟨c, ct, hct⟩ := joinSep_cons_ne l0 rest h0ne
        rw [hct]
        simp
      exact splitlinesGo_joinSep rest
        (fun l hl => hfacts l (by rw [hr]; simp [hl])) l0
        (hfacts l0 (by rw [hr]; simp)).2

theorem validate_renderBlock (gb : GoodBlock) (hok : goodBlockOk gb = true) :
    validate_llm_block (renderBlock gb) = [] := by
  obtain ⟨hadvs, _, _, _, hsne, hsok, hes⟩ := goodBlockOk_spec gb hok
  have hdec : renderLines gb = ((mAdvS ++ [' ']) ++ gb.advs) ::
      ([(mSimS ++ [' ']) ++ gb.sims, (mSimE ++ [' ']) ++ gb.sime,
        mSimS_Segments] ++
        mapIdxGo segLine 0 gb.segs ++ [mPHRASE_ALIGN] ++
        mapIdxGo alignLine 0 gb.segs ++ [mSimSL] ++
        mapIdxGo simslLine 0 gb.segs ++
        [(mAdvSL ++ [' ']) ++ gb.advsl, mDIGLOT_MAP] ++
        mapIdxGo diglotLine 0 gb.segs) := by
    unfold renderLines
    simp
  have hnb : ((((renderLines gb).map strip).filter
      (fun l => !l.isEmpty))).isEmpty = false := by
    rw [hdec, List.map_cons, List.filter_cons]
    rw [strip_id_header mAdvS gb.advs 'A' _ rfl (by decide) hadvs]
    rw [show (((mAdvS ++ [' ']) ++ gb.advs).isEmpty : Bool) = false from by
      simp [mAdvS]]
    simp
  have hany : (((renderLines gb).map strip).filter (fun l => !l.isEmpty)).any
      (containsSub esTok) = false := by
    rw [List.any_eq_false]
    intro x hx
    rw [List.mem_filter] at hx
    obtain ⟨hx1, _⟩ := hx
    rw [List.mem_map] at hx1
    obtain ⟨l, hl, rfl⟩ := hx1
    simp [hes l hl]
  unfold validate_llm_block
  rw [splitlines_renderBlock gb hok]
  dsimp only
  simp only [hnb, Bool.false_eq_true, if_false, hany,
    renderLines_scanErrs gb hok, renderLines_orderErrs gb hok,
    sectionPhases_renderLines gb hok, List.append_nil, List.nil_append,
    List.isEmpty_nil, if_true]

/-- **C1.** Every block conforming to the §6 micro-format — the eight
required sections present exactly once and in catalog order, `k ≥ 1`
segments with IDs exactly `S1..Sk`, each `SimS_Segments::` line
`S<n>(content)` with non-empty content, one well-formed `PHRASE_ALIGN::`
and `SimSL::` line per segment with non-blank spans and lemma text, a
single `AdvSL::` content line, and one `DIGLOT_MAP::` `S<n> ::` line per
segment whose entries all match `EngWord->SpaLemma(ExactSpaForm)(Y|N)`
with non-blank fields — passes `validate_llm_block` with no errors; in
particular the concrete 1-segment §8 example block validates to `[]`. -/
theorem C1_wellformed_blocks_validate :
    (∀ gb : GoodBlock, goodBlockOk gb = true →
      validate_llm_block (renderBlock gb) = []) ∧
    validate_llm_block ex8Block = [] :=
  ⟨fun gb hok => validate_renderBlock gb hok, by decide⟩

theorem C1_witness :
    goodBlockOk exGB = true ∧ validate_llm_block (renderBlock exGB) = [] :=
  ⟨by decide, C1_wellformed_blocks_validate.1 exGB (by decide)⟩

end Weave
